import Mathlib

/-!
Rancher controllers: auth-config cleanup lock, config propagation, system charts

A shallow embedding of

* `pkg/controllers/management/auth/auth_config.go`
  (`authConfigController.setCleanupAnnotation`, `authConfigController.sync`),
* `pkg/controllers/managementuser/systemcharts/systemcharts.go`
  (`controller.onClusterChange`, `controller.createConfigMap`),
* `pkg/controllers/dashboard/systemcharts/controller.go`
  (`handler.onRepo`, `handler.getChartsToInstall`), and
* the cluster-version gate `checkClusterVersion` of
  `pkg/controllers/managementuser/rbac/podsecuritypolicy`, of which only the test is at
  hand.

Go methods that talk to the API server are modelled as functions over an explicit
record of collaborators; every call made to a collaborator is appended to a call
log, so that "issues no Update" or "invokes cleanup exactly once" are statements
about that log.  A Go `(value, error)` return is a pair of options (`none` is `nil`).
-/

namespace Rancher

/-! ## Shared data model -/

/-- Go `error` values as far as the controllers inspect them: an API "not found"
status error, any other error, and an error produced by `fmt.Errorf("...: %w", err)`. -/
inductive Err where
  | notFound (msg : String)
  | other (msg : String)
  | wrap (msg : String) (inner : Err)
deriving DecidableEq, Repr

/-- The predicate `errors.IsNotFound` of `k8s.io/apimachinery/pkg/api/errors`: it looks
through `%w` wrapping for a status error whose reason is NotFound. -/
def IsNotFound : Err → Bool
  | .notFound _ => true
  | .other _ => false
  | .wrap _ e => IsNotFound e

/-- A Go `map[string]string` as an association list; the first binding of a key counts. -/
abbrev StrMap := List (String × String)

/-- Go `m[k]` on a `map[string]string`: the zero value `""` when the key is absent. -/
def StrMap.get (m : StrMap) (k : String) : String :=
  (m.lookup k).getD ""

/-- Go `v, ok := m[k]`. -/
def StrMap.get? (m : StrMap) (k : String) : Option String :=
  m.lookup k

/-- Go `m[k] = v`: every older binding of `k` is dropped. -/
def StrMap.set (m : StrMap) (k v : String) : StrMap :=
  (k, v) :: m.filter (fun p => p.1 != k)

/-- A Go `any` value inside unstructured content or a chart value map: a string, a non-nil
`map[string]any`, a `map[interface{}]interface{}` (what YAML decoding gives for a nested
mapping; its keys are written as strings), or anything else (number, bool, slice, nil).
A type assertion to `map[string]any` succeeds on `map` only. -/
inductive Val where
  | str (s : String)
  | map (m : List (String × Val))
  | scalar (repr : String)
  | anyMap (m : List (String × Val))

/-- Go `m[k]` on a `map[string]any`, `none` when the key is absent. -/
def Val.lookup (m : List (String × Val)) (k : String) : Option Val :=
  m.lookup k

/-- Go `m[k] = v` on a `map[string]any`. -/
def Val.set (m : List (String × Val)) (k : String) (v : Val) : List (String × Val) :=
  (k, v) :: m.filter (fun p => p.1 != k)

/-! ## `pkg/controllers/management/auth` -/

namespace Auth

def CleanupAnnotation : String := "management.cattle.io/auth-provider-cleanup"

def CleanupUnlocked : String := "unlocked"

def CleanupUserLocked : String := "user-locked"

def CleanupRancherLocked : String := "rancher-locked"

/-- The fields of `v3.AuthConfig` that the controller reads. -/
structure AuthConfig where
  Name : String
  Enabled : Bool
  Annotations : StrMap
deriving DecidableEq, Repr

/-- A `runtime.Object`: the typed auth config handed to `sync`, an unstructured object
(`runtime.Unstructured`, with its content map), or an object of some other kind. -/
inductive Object where
  | authConfig (c : AuthConfig)
  | unstructured (content : List (String × Val))
  | otherKind (tag : String)

/-- The collaborators of `authConfigController` used by `sync`:
`authConfigs.Get`, `authConfigs.Update` and `cleanup.Run`. -/
structure Controller where
  Get : String → Option Object × Option Err
  Update : String → Object → Option Object × Option Err
  Run : AuthConfig → Option Err

/-- One entry of the call log.  `setter` marks an invocation of the method
`setCleanupAnnotation` with the value it was asked to write; the other three are
the calls that leave the controller. -/
inductive Call where
  | setter (obj : AuthConfig) (value : String)
  | get (name : String)
  | update (name : String) (o : Object)
  | cleanup (obj : AuthConfig)

/-- What a method returns, `(runtime.Object, error)`, together with the calls it made. -/
structure Outcome where
  ret : Option Object
  err : Option Err
  calls : List Call

/-- The same outcome with earlier calls put in front of its log. -/
def Outcome.after (pre : List Call) (o : Outcome) : Outcome :=
  { o with calls := pre ++ o.calls }

def Call.isGet : Call → Bool
  | .get _ => true
  | _ => false

def Call.isUpdate : Call → Bool
  | .update _ _ => true
  | _ => false

def Call.isCleanup : Call → Bool
  | .cleanup _ => true
  | _ => false

/-- The values handed to `setCleanupAnnotation`, in call order. -/
def setterValues : List Call → List String
  | [] => []
  | .setter _ v :: cs => v :: setterValues cs
  | _ :: cs => setterValues cs

/-- The objects handed to `authConfigs.Update`, in call order. -/
def updatedObjects : List Call → List Object
  | [] => []
  | .update _ o :: cs => o :: updatedObjects cs
  | _ :: cs => updatedObjects cs

/-- The value `metadata.annotations[CleanupAnnotation]` of an object, when the object is
unstructured and both `metadata` and `metadata.annotations` are maps holding it. -/
def cleanupAnnotationOf : Object → Option Val
  | .unstructured content =>
    match Val.lookup content "metadata" with
    | some (.map metadata) =>
      match Val.lookup metadata "annotations" with
      | some (.map annotations) => Val.lookup annotations CleanupAnnotation
      | _ => none
    | _ => none
  | _ => none

/-- `authConfigController.setCleanupAnnotation`.

Go maps are references.  When `metadata["annotations"]` is a map, the write
`annotations[CleanupAnnotation] = value` goes to the map that `metadata` holds, which
the embedding renders by rebuilding `metadata` and the content around the changed map.
When the type assertion fails, `annotations` is a fresh map from `make`; the source never
stores it into `metadata`, so the content handed to `Update` is the content that was read. -/
def setCleanupAnnotation (ac : Controller) (obj : AuthConfig) (value : String) : Outcome :=
  let name := obj.Name
  match ac.Get name with
  | (_, some err) => ⟨none, some err, [.setter obj value, .get name]⟩
  | (some (.unstructured authConfig), none) =>
    match Val.lookup authConfig "metadata" with
    | some (.map metadata) =>
      match Val.lookup metadata "annotations" with
      | some (.map annotations) =>
        let annotations := Val.set annotations CleanupAnnotation (.str value)
        let metadata := Val.set metadata "annotations" (.map annotations)
        let authConfig := Val.set authConfig "metadata" (.map metadata)
        let r := ac.Update name (.unstructured authConfig)
        ⟨r.1, r.2, [.setter obj value, .get name, .update name (.unstructured authConfig)]⟩
      | _ =>
        let r := ac.Update name (.unstructured authConfig)
        ⟨r.1, r.2, [.setter obj value, .get name, .update name (.unstructured authConfig)]⟩
    | _ => ⟨none, none, [.setter obj value, .get name]⟩
  | (_, none) => ⟨none, none, [.setter obj value, .get name]⟩

/-- `authConfigController.sync`; `obj = none` is the nil pointer. -/
def sync (ac : Controller) (_key : String) (obj : Option AuthConfig) : Outcome :=
  match obj with
  | none => ⟨none, none, []⟩
  | some obj =>
    let value := obj.Annotations.get CleanupAnnotation
    if value = "" then
      let value := if obj.Enabled then CleanupUnlocked else CleanupRancherLocked
      setCleanupAnnotation ac obj value
    else if obj.Enabled = true ∧ value = CleanupRancherLocked then
      setCleanupAnnotation ac obj CleanupUnlocked
    else if obj.Enabled = false then
      if value = CleanupUnlocked then
        match ac.Run obj with
        | some err => ⟨some (.authConfig obj), some err, [.cleanup obj]⟩
        | none => ( setCleanupAnnotation ac obj CleanupRancherLocked).after [.cleanup obj]
      else if value = CleanupRancherLocked then
        ⟨some (.authConfig obj), none, []⟩
      else if value = CleanupUserLocked then
        ⟨some (.authConfig obj), none, []⟩
      else
        ⟨some (.authConfig obj), none, []⟩
    else
      ⟨some (.authConfig obj), none, []⟩

end Auth

/-! ## `pkg/controllers/managementuser/systemcharts` -/

namespace chart

/-- The constant `chart.WebhookChartName`; its value is the chart name the tests of the
system-chart reconciler expect in `Ensure`. -/
def WebhookChartName : String := "rancher-webhook"

/-- Modelled from the spec: the constant `chart.CustomValueMapName`, the fixed name of the
custom-values ConfigMap, is declared in a file that is not part of the sources at hand. -/
def CustomValueMapName : String := "rancher-config"

end chart

/-- Modelled from the spec: the constant `namespace.System`, the fixed system namespace, is
declared in a file that is not part of the sources at hand. -/
def namespace_System : String := "cattle-system"

namespace SystemCharts

/-- The fields of `v3.Cluster` that the handler reads; `ChartValues = none` is the nil map. -/
structure Cluster where
  Name : String
  ChartValues : Option StrMap
deriving DecidableEq, Repr

/-- The fields of `v1.ConfigMap` that the handler reads or writes; `none` is a nil map. -/
structure ConfigMap where
  Name : String
  Namespace : String
  Labels : Option StrMap
  Data : Option StrMap
deriving DecidableEq, Repr

/-- The `controller` struct: the downstream ConfigMap cache, the downstream ConfigMap
client (`Create`, `Update`) and the name of the cluster it serves. -/
structure Controller where
  cacheGet : String → String → Option ConfigMap × Option Err
  Create : ConfigMap → Option ConfigMap × Option Err
  Update : ConfigMap → Option ConfigMap × Option Err
  clusterName : String

/-- One call to the cache or to the client. -/
inductive Call where
  | cacheGet (ns name : String)
  | create (cm : ConfigMap)
  | update (cm : ConfigMap)
deriving DecidableEq, Repr

def Call.isCreate : Call → Bool
  | .create _ => true
  | _ => false

def Call.isUpdate : Call → Bool
  | .update _ => true
  | _ => false

def Call.isCacheGet : Call → Bool
  | .cacheGet _ _ => true
  | _ => false

/-- What `onClusterChange` returns, `(*v3.Cluster, error)`, together with the calls it made. -/
structure Outcome where
  ret : Option Cluster
  err : Option Err
  calls : List Call
deriving DecidableEq, Repr

/-- `controller.createConfigMap`: the error it returns and the `Create` call it made. -/
def createConfigMap (c : Controller) (webhookValues : String) : Option Err × List Call :=
  let clusterConfigMap : ConfigMap :=
    { Name := chart.CustomValueMapName
      Namespace := namespace_System
      Labels := some [("app.kubernetes.io/part-of", "rancher")]
      Data := some [(chart.WebhookChartName, webhookValues)] }
  match (c.Create clusterConfigMap).2 with
  | some err =>
    (some (.wrap ("failed to create '" ++ chart.CustomValueMapName ++ "' ConfigMap") err),
      [.create clusterConfigMap])
  | none => (none, [.create clusterConfigMap])

/-- `controller.onClusterChange`; `cluster = none` is the nil pointer.  A nil
`ChartValues` map returns early, so `Spec.ChartValues[...]` is read from a non-nil map. -/
def onClusterChange (c : Controller) (_key : String) (cluster : Option Cluster) : Outcome :=
  match cluster with
  | none => ⟨cluster, none, []⟩
  | some cl =>
    if cl.Name ≠ c.clusterName then ⟨cluster, none, []⟩
    else
      match cl.ChartValues with
      | none => ⟨cluster, none, []⟩
      | some chartValues =>
        let webhookValues := chartValues.get chart.WebhookChartName
        let read := [Call.cacheGet namespace_System chart.CustomValueMapName]
        match c.cacheGet namespace_System chart.CustomValueMapName with
        | (_, some err) =>
          if IsNotFound err then
            match createConfigMap c webhookValues with
            | (some err, calls) => ⟨none, some err, read ++ calls⟩
            | (none, calls) => ⟨cluster, none, read ++ calls⟩
          else
            ⟨none, some (.wrap ("failed to retrieve ConfigMap '" ++ chart.CustomValueMapName
              ++ "' on cluster '" ++ c.clusterName ++ "'") err), read⟩
        | (none, none) =>
          -- a nil ConfigMap with a nil error, which the cache never returns: reading
          -- its Data is a nil dereference, rendered here as an error
          ⟨none, some (.other "nil pointer dereference"), read⟩
        | (some clusterConfigMap, none) =>
          let write (data : StrMap) : Outcome :=
            let updated := { clusterConfigMap with
              Data := some (data.set chart.WebhookChartName webhookValues) }
            match (c.Update updated).2 with
            | some err =>
              ⟨none, some (.wrap ("failed to update '" ++ chart.CustomValueMapName
                ++ "' ConfigMap") err), read ++ [.update updated]⟩
            | none => ⟨cluster, none, read ++ [.update updated]⟩
          match clusterConfigMap.Data with
          | none => write []
          | some data =>
            if data.get chart.WebhookChartName = webhookValues then ⟨cluster, none, read⟩
            else write data

/-! ### The downstream store

The ConfigMap kept downstream under `(namespace.System, chart.CustomValueMapName)`:
`none` when it does not exist.  Reads go through the cache, writes through the client. -/

/-- A controller whose cache reads the given store state; `createErr` and `updateErr`
are the errors the client answers with (`none`: the write is accepted and the written
object is returned). -/
def storeController (clusterName : String) (store : Option ConfigMap)
    (createErr updateErr : Option Err) : Controller where
  cacheGet := fun ns name =>
    if ns = namespace_System ∧ name = chart.CustomValueMapName then
      match store with
      | some cm => (some cm, none)
      | none => (none, some (.notFound name))
    else (none, some (.notFound name))
  Create := fun cm =>
    match createErr with
    | some e => (none, some e)
    | none => (some cm, none)
  Update := fun cm =>
    match updateErr with
    | some e => (none, some e)
    | none => (some cm, none)
  clusterName := clusterName

/-- The store state after the accepted writes of a call log. -/
def storeAfter (store : Option ConfigMap) : List Call → Option ConfigMap
  | [] => store
  | .create cm :: cs => storeAfter (some cm) cs
  | .update cm :: cs => storeAfter (some cm) cs
  | .cacheGet _ _ :: cs => storeAfter store cs

end SystemCharts

/-! ## `pkg/controllers/dashboard/systemcharts` -/

/-- A Go `bool` stored in a `map[string]any`. -/
def Val.ofBool (b : Bool) : Val :=
  .scalar (toString b)

/-- Go `m[k1][k2]...` through nested `map[string]any` values. -/
def Val.path (m : List (String × Val)) : List String → Option Val
  | [] => some (.map m)
  | [k] => Val.lookup m k
  | k :: ks =>
    match Val.lookup m k with
    | some (.map inner) => Val.path inner ks
    | _ => none

/-- The loop `for k, v := range over { values[k] = v }`: every key of `over` replaces the
binding of the same key in `values`, whatever the two values are. -/
def Val.overwrite (values over : List (String × Val)) : List (String × Val) :=
  over.foldr (fun p acc => Val.set acc p.1 p.2) values

/-- The function `data.MergeMaps(base, overlay)` of `github.com/rancher/wrangler/pkg/data`:
the result starts as a copy of `base`; for every key of `overlay`, when both the base
value and the overlay value are `map[string]interface{}` the two are merged recursively,
otherwise the overlay value is taken as it is. -/
def MergeMaps (base : List (String × Val)) : List (String × Val) → List (String × Val)
  | [] => base
  | (k, v) :: rest =>
    let merged := match Val.lookup base k, v with
      | some (.map baseMap), .map overlayMap => Val.map (MergeMaps baseMap overlayMap)
      | _, _ => v
    Val.set (MergeMaps base rest) k merged

namespace chart

/-- Modelled from the spec: the constant `chart.PriorityClassKey` is declared in a file that
is not part of the sources at hand; the tests of the reconciler expect this key. -/
def PriorityClassKey : String := "priorityClassName"

/-- The struct `chart.Definition` as `onRepo` uses it.  The two settings are given by the
value their `Get()` returns, the closures `Values` and `Enabled` by their result
(`none`: the field is nil). -/
structure Definition where
  ReleaseNamespace : String
  ChartName : String
  MinVersionSetting : String
  ExactVersionSetting : String
  Values : Option (List (String × Val))
  Enabled : Option Bool
  Uninstall : Bool
  RemoveNamespace : Bool

end chart

namespace Dashboard

def repoName : String := "rancher-charts"

def webhookImage : String := "rancher/rancher-webhook"

/-- The field of `catalog.ClusterRepo` that `onRepo` reads. -/
structure ClusterRepo where
  Name : String
deriving DecidableEq, Repr

/-- The `handler` struct with what it reaches: the chart manager (`Ensure`, `Uninstall`),
the namespace client (`Delete`), the two reads of `chartsConfig` with the pair each
returns, the registry override, and the settings and feature flags read during a pass. -/
structure Handler where
  Ensure : String → String → String → String → List (String × Val) → Bool → String →
    Option Err
  Uninstall : String → String → Option Err
  Delete : String → Option Err
  GetPriorityClassName : String × Option Err
  GetWebhookValues : Option (List (String × Val)) × Option Err
  registryOverride : String
  SystemDefaultRegistry : String
  ShellImage : String
  RancherWebhookMinVersion : String
  RancherWebhookVersion : String
  EmbeddedClusterAPI : Bool
  MCM : Bool

/-- One call to the chart manager or to the namespace client. -/
inductive Call where
  | ensure (ns name minVersion exactVersion : String) (values : List (String × Val))
      (isWebhook : Bool) (installImageOverride : String)
  | uninstall (ns name : String)
  | delete (ns : String)

def Call.isEnsure : Call → Bool
  | .ensure _ _ _ _ _ _ _ => true
  | _ => false

def Call.isUninstall : Call → Bool
  | .uninstall _ _ => true
  | _ => false

def Call.isDelete : Call → Bool
  | .delete _ => true
  | _ => false

/-- The value maps handed to `Ensure`, in call order. -/
def ensuredValues : List Call → List (List (String × Val))
  | [] => []
  | .ensure _ _ _ _ values _ _ :: cs => values :: ensuredValues cs
  | _ :: cs => ensuredValues cs

/-- What `onRepo` returns, `(*catalog.ClusterRepo, error)`, together with the calls it made. -/
structure Outcome where
  ret : Option ClusterRepo
  err : Option Err
  calls : List Call

/-- The same outcome with earlier calls put in front of its log. -/
def Outcome.after (pre : List Call) (o : Outcome) : Outcome :=
  { o with calls := pre ++ o.calls }

/-- Whether a value is a `map[string]interface{}`, the one type `data.MergeMaps` merges. -/
def isStringMap : Val → Bool
  | .map _ => true
  | _ => false

/-- Modelled from the spec: `GetWebhookValues` parses the YAML text of the ConfigMap into a
string-keyed mapping; the function is not part of the sources at hand.  What its parser
gives for a nested mapping is shown by the test of the reconciler, which expects
`map[any]interface{}` under `mcm`: no top-level value is a `map[string]interface{}`. -/
def yamlDecoded (values : List (String × Val)) : Bool :=
  values.all (fun p => !isStringMap p.2)

/-- The map `values` that the closure `Values` of the webhook chart definition builds
before it merges the ConfigMap values in: the two feature flags, and the priority class
name when `GetPriorityClassName` returns no error. -/
def webhookStaticValues (h : Handler) : List (String × Val) :=
  let values : List (String × Val) :=
    [("capi", .map [("enabled", Val.ofBool h.EmbeddedClusterAPI)]),
     ("mcm", .map [("enabled", Val.ofBool h.MCM)])]
  match h.GetPriorityClassName with
  | (_, some _) => values
  | (priorityClassName, none) => Val.set values chart.PriorityClassKey (.str priorityClassName)

/-- The closure `Values` of the webhook chart definition in `getChartsToInstall`: the map
returned by `GetWebhookValues` (a nil map ranges over nothing) is merged over `values`
whatever error came with it. -/
def webhookChartValues (h : Handler) : List (String × Val) :=
  let configMapValues := h.GetWebhookValues.1
  MergeMaps (webhookStaticValues h) (configMapValues.getD [])

/-- `handler.getChartsToInstall`. -/
def getChartsToInstall (h : Handler) : List chart.Definition :=
  [ { ReleaseNamespace := namespace_System
      ChartName := chart.WebhookChartName
      MinVersionSetting := h.RancherWebhookMinVersion
      ExactVersionSetting := h.RancherWebhookVersion
      Values := some (webhookChartValues h)
      Enabled := some true
      Uninstall := false
      RemoveNamespace := false },
    { ReleaseNamespace := "rancher-operator-system"
      ChartName := "rancher-operator"
      MinVersionSetting := ""
      ExactVersionSetting := ""
      Values := none
      Enabled := none
      Uninstall := true
      RemoveNamespace := true } ]

/-- The map `systemGlobalRegistry` built at the start of `onRepo`. -/
def systemGlobalRegistry (h : Handler) : List (String × Val) :=
  let systemGlobalRegistry : List (String × Val) :=
    [("cattle", .map [("systemDefaultRegistry", .str h.SystemDefaultRegistry)])]
  if h.registryOverride ≠ "" then
    let registryMap :=
      match Val.lookup systemGlobalRegistry "cattle" with
      | some (.map m) => m
      | _ => []
    let registryMap := Val.set registryMap "systemDefaultRegistry" (.str "")
    Val.set systemGlobalRegistry "cattle" (.map registryMap)
  else systemGlobalRegistry

/-- The map `values` of one pass of the loop in `onRepo` before the chart definition's own
values are written into it: `global`, and under a registry override the image repository. -/
def baseValues (h : Handler) : List (String × Val) :=
  let values : List (String × Val) := [("global", .map (systemGlobalRegistry h))]
  if h.registryOverride ≠ "" then
    let imageSettings :=
      match Val.lookup values "image" with
      | some (.map m) => m
      | _ => []
    let imageSettings :=
      Val.set imageSettings "repository" (.str (h.registryOverride ++ "/" ++ webhookImage))
    Val.set values "image" (.map imageSettings)
  else values

/-- The variable `installImageOverride` of one pass of the loop in `onRepo`. -/
def installImageOverride (h : Handler) : String :=
  if h.registryOverride ≠ "" then h.registryOverride ++ "/" ++ h.ShellImage else ""

/-- The `Ensure` call of one pass of the loop in `onRepo` for a chart definition that is
installed: the base values are overwritten key by key with the definition's own values,
and a minimum version of the webhook chart clears the exact version. -/
def ensureCall (h : Handler) (chartDef : chart.Definition) : Call :=
  let values :=
    match chartDef.Values with
    | some chartValues => Val.overwrite (baseValues h) chartValues
    | none => baseValues h
  let minVersion := chartDef.MinVersionSetting
  let exactVersion :=
    if chartDef.ChartName = chart.WebhookChartName ∧ minVersion ≠ "" then ""
    else chartDef.ExactVersionSetting
  .ensure chartDef.ReleaseNamespace chartDef.ChartName minVersion exactVersion values
    (chartDef.ChartName == chart.WebhookChartName) (installImageOverride h)

/-- The answer of the chart manager or of the namespace client to a call. -/
def Handler.answer (h : Handler) : Call → Option Err
  | .ensure ns name minVersion exactVersion values isWebhook installImageOverride =>
    h.Ensure ns name minVersion exactVersion values isWebhook installImageOverride
  | .uninstall ns name => h.Uninstall ns name
  | .delete ns => h.Delete ns

/-- The loop `for _, chartDef := range ...` of `handler.onRepo`, over a given list of
chart definitions. -/
def onRepoCharts (h : Handler) (repo : Option ClusterRepo) : List chart.Definition → Outcome
  | [] => ⟨repo, none, []⟩
  | chartDef :: rest =>
    if chartDef.Enabled = some false then onRepoCharts h repo rest
    else if chartDef.Uninstall = true then
      let uninstall := Call.uninstall chartDef.ReleaseNamespace chartDef.ChartName
      match h.Uninstall chartDef.ReleaseNamespace chartDef.ChartName with
      | some err => ⟨repo, some err, [uninstall]⟩
      | none =>
        if chartDef.RemoveNamespace = true then
          let delete := Call.delete chartDef.ReleaseNamespace
          match h.Delete chartDef.ReleaseNamespace with
          | some err =>
            if IsNotFound err = false then ⟨repo, some err, [uninstall, delete]⟩
            else (onRepoCharts h repo rest).after [uninstall, delete]
          | none => (onRepoCharts h repo rest).after [uninstall, delete]
        else (onRepoCharts h repo rest).after [uninstall]
    else
      match h.answer (ensureCall h chartDef) with
      | some err => ⟨repo, some err, [ensureCall h chartDef]⟩
      | none => (onRepoCharts h repo rest).after [ensureCall h chartDef]

/-- `handler.onRepo`; `repo = none` is the nil pointer. -/
def onRepo (h : Handler) (_key : String) (repo : Option ClusterRepo) : Outcome :=
  match repo with
  | none => ⟨repo, none, []⟩
  | some r =>
    if r.Name ≠ repoName then ⟨repo, none, []⟩
    else onRepoCharts h repo (getChartsToInstall h)

end Dashboard

/-! ## `pkg/controllers/managementuser/rbac/podsecuritypolicy` -/

namespace PodSecurityPolicy

/-- Modelled from the spec: the cluster object that the lister returns, reduced to its
`Status.Version.GitVersion` string; the type is declared outside the sources at hand. -/
structure Cluster where
  GitVersion : String
deriving DecidableEq, Repr

/-- Modelled from the spec: the `+suffix` of `vMAJOR.MINOR.PATCH[+suffix]` is ignored, so
everything from the first `+` on is dropped; `checkClusterVersion` and what it calls are
not part of the sources at hand. -/
def dropBuildSuffix (s : List Char) : List Char :=
  s.takeWhile (fun c => c != '+')

/-- Modelled from the spec: the dot-separated components of a version string (the parser is
not part of the sources at hand). -/
def splitDots : List Char → List (List Char)
  | [] => [[]]
  | c :: cs =>
    if c = '.' then [] :: splitDots cs
    else
      match splitDots cs with
      | [] => [[c]]
      | seg :: segs => (c :: seg) :: segs

/-- Modelled from the spec: a numeric component is a non-empty run of decimal digits (the
parser is not part of the sources at hand). -/
def parseNumber (seg : List Char) : Option Nat :=
  if seg ≠ [] ∧ seg.all Char.isDigit = true then
    some (seg.foldl (fun n c => 10 * n + (c.toNat - 48)) 0)
  else none

/-- Modelled from the spec: parsing of the pattern `vMAJOR.MINOR.PATCH[+suffix]`; any other
format is a failure.  The parser is not part of the sources at hand. -/
def parseVersion (version : String) : Option (Nat × Nat × Nat) :=
  match version.toList with
  | 'v' :: body =>
    match splitDots (dropBuildSuffix body) with
    | [major, minor, patch] =>
      match parseNumber major, parseNumber minor, parseNumber patch with
      | some a, some b, some c => some (a, b, c)
      | _, _, _ => none
    | _ => none
  | _ => none

/-- Modelled from the spec: the upper end of the inclusive range of allowed minor versions;
minor 24 passes and minor 25 fails.  The constant is not part of the sources at hand. -/
def maxMinor : Nat := 24

/-- Modelled from the spec: `checkClusterVersion(clusterID, lister)`, which is not part of
the sources at hand (only its test is).  It fetches the named cluster and fails when the
lookup errors, when the version string is empty, when the string does not parse as
`vMAJOR.MINOR.PATCH[+suffix]`, or when the minor version lies outside the inclusive allowed
range; the spec does not name the lower end of the range, which is the argument `minMinor`. -/
def checkClusterVersion (minMinor : Nat) (clusterID : String)
    (lister : String → Option Cluster × Option Err) : Option Err :=
  match lister clusterID with
  | (_, some err) => some (.wrap "cannot get cluster" err)
  | (none, none) => some (.other "cluster is nil")
  | (some cluster, none) =>
    if cluster.GitVersion = "" then some (.other "cluster version is empty")
    else
      match parseVersion cluster.GitVersion with
      | none => some (.other "cannot parse cluster version")
      | some (_, minor, _) =>
        if minMinor ≤ minor ∧ minor ≤ maxMinor then none
        else some (.other "cluster version is not allowed")

/-- The lister of the test: the cluster `test` reports the given version, any other name
is an error. -/
def newClusterListerWithVersion (kubernetesVersion : String) :
    String → Option Cluster × Option Err :=
  fun name =>
    if name = "test" then (some { GitVersion := kubernetesVersion }, none)
    else (none, some (.other ("invalid cluster: " ++ name)))

end PodSecurityPolicy

/-! ## Sample collaborators, used to run the handlers on concrete inputs -/

namespace Auth

/-- A store holding the object `stored` under every name: `Get` answers with it, `Update`
accepts and returns what it is given; cleanup answers with `cleanupErr`. -/
def sampleController (stored : Object) (cleanupErr : Option Err) : Controller where
  Get := fun _ => (some stored, none)
  Update := fun _ o => (some o, none)
  Run := fun _ => cleanupErr

/-- An auth config named `github` with the given flag and cleanup annotation. -/
def sampleConfig (enabled : Bool) ( annotation : String) : AuthConfig :=
  { Name := "github", Enabled := enabled, Annotations := [( CleanupAnnotation, annotation)] }

/-- A stored unstructured auth config whose metadata carries a name and no annotations. -/
def storedWithoutAnnotations : Object :=
  .unstructured [("metadata", .map [("name", .str "github")]), ("enabled", .scalar "false")]

/-- A stored unstructured auth config whose metadata carries an annotations map. -/
def storedWithAnnotations : Object :=
  .unstructured [("metadata", .map [("name", .str "github"),
    ("annotations", .map [("owner", .str "admin")])])]

end Auth

namespace SystemCharts

/-- A cluster named `test-cluster` with the given (non-nil) chart-value map. -/
def sampleCluster (values : StrMap) : Cluster :=
  { Name := "test-cluster", ChartValues := some values }

/-- A downstream ConfigMap holding values for the webhook chart and for another chart. -/
def populatedConfigMap : ConfigMap :=
  { Name := chart.CustomValueMapName
    Namespace := namespace_System
    Labels := none
    Data := some [(chart.WebhookChartName, "oldKey: oldValue"),
      ("other-chart", "otherKey:otherValues")] }

/-- A downstream ConfigMap holding values for another chart only. -/
def otherChartConfigMap : ConfigMap :=
  { Name := chart.CustomValueMapName
    Namespace := namespace_System
    Labels := none
    Data := some [("other-chart", "otherKey:otherValues")] }

/-- A controller for `test-cluster` whose cache read fails with the given error. -/
def failingReadController (e : Err) : Controller where
  cacheGet := fun _ _ => (none, some e)
  Create := fun cm => (some cm, none)
  Update := fun cm => (some cm, none)
  clusterName := "test-cluster"

end SystemCharts

namespace Dashboard

/-- A handler with the given registry override, configuration reads and answers of the
chart manager (`ensureErr`, `uninstallErr`) and of the namespace client (`deleteErr`). -/
def sampleHandler (registryOverride : String)
    (priorityClass : String × Option Err)
    (webhookValues : Option (List (String × Val)) × Option Err)
    (ensureErr uninstallErr deleteErr : Option Err) : Handler where
  Ensure := fun _ _ _ _ _ _ _ => ensureErr
  Uninstall := fun _ _ => uninstallErr
  Delete := fun _ => deleteErr
  GetPriorityClassName := priorityClass
  GetWebhookValues := webhookValues
  registryOverride := registryOverride
  SystemDefaultRegistry := "registry.example.com"
  ShellImage := "rancher/shell:v0.1.20"
  RancherWebhookMinVersion := ""
  RancherWebhookVersion := "2.0.0"
  EmbeddedClusterAPI := true
  MCM := true

/-- The mapping of the test fixture `testYAML` as the YAML parser returns it: `newKey` a
string, `mcm` a nested mapping, `global` the empty string. -/
def testYAMLValues : List (String × Val) :=
  [("newKey", .str "newValue"), ("mcm", .anyMap [("enabled", Val.ofBool false)]),
    ("global", .str "")]

/-- ConfigMap values with nested mappings under `mcm` and `global` that lack the keys the
lower layers hold there. -/
def nestedOverrideValues : List (String × Val) :=
  [("mcm", .anyMap [("extra", .str "x")]), ("global", .anyMap [("foo", .str "bar")])]

/-- The cluster repo `rancher-charts`. -/
def sampleRepo : ClusterRepo :=
  { Name := repoName }

/-- The second chart definition of the built-in list: `rancher-operator` is uninstalled and
its namespace removed. -/
def operatorDefinition : chart.Definition :=
  { ReleaseNamespace := "rancher-operator-system"
    ChartName := "rancher-operator"
    MinVersionSetting := ""
    ExactVersionSetting := ""
    Values := none
    Enabled := none
    Uninstall := true
    RemoveNamespace := true }

/-- A chart definition, other than the webhook chart, that is installed. -/
def fleetDefinition : chart.Definition :=
  { ReleaseNamespace := "cattle-fleet-system"
    ChartName := "fleet"
    MinVersionSetting := "1.0.0"
    ExactVersionSetting := "1.2.3"
    Values := none
    Enabled := none
    Uninstall := false
    RemoveNamespace := false }

end Dashboard

/-! ## Association-list facts -/

theorem StrMap.get_set_self (m : StrMap) (k v : String) : (m.set k v).get k = v := by
  simp [StrMap.set, StrMap.get, List.lookup]

theorem StrMap.get?_set_self (m : StrMap) (k v : String) : (m.set k v).get? k = some v := by
  simp [StrMap.set, StrMap.get?, List.lookup]

theorem StrMap.lookup_filter_ne (m : StrMap) (k k' : String) (h : k' ≠ k) :
    (m.filter (fun p => p.1 != k)).lookup k' = m.lookup k' := by
  induction m with
  | nil => rfl
  | cons p ps ih =>
    obtain ⟨a, b⟩ := p
    by_cases ha : a = k
    · subst ha
      have hk : (k' == a) = false := by simpa using h
      simp [List.filter, List.lookup, hk, ih]
    · have hne : (a != k) = true := by simpa using ha
      simp only [List.filter, hne, List.lookup]
      rw [ih]

theorem StrMap.get?_set_ne (m : StrMap) (k k' v : String) (h : k' ≠ k) :
    (m.set k v).get? k' = m.get? k' := by
  have hk : (k' == k) = false := by simpa using h
  simp [StrMap.set, StrMap.get?, List.lookup, hk, StrMap.lookup_filter_ne m k k' h]

theorem Val.lookup_set_self (m : List (String × Val)) (k : String) (v : Val) :
    Val.lookup (Val.set m k v) k = some v := by
  simp [Val.set, Val.lookup, List.lookup]

theorem Val.lookup_filter_other (m : List (String × Val)) (k k' : String) (h : k' ≠ k) :
    (m.filter (fun p => p.1 != k)).lookup k' = m.lookup k' := by
  induction m with
  | nil => rfl
  | cons p ps ih =>
    obtain ⟨a, b⟩ := p
    by_cases ha : a = k
    · subst ha
      have hk : (k' == a) = false := by simpa using h
      simp [List.filter, List.lookup, hk, ih]
    · have hne : (a != k) = true := by simpa using ha
      simp only [List.filter, hne, List.lookup]
      rw [ih]

theorem Val.lookup_set_ne (m : List (String × Val)) (k k' : String) (v : Val) (h : k' ≠ k) :
    Val.lookup (Val.set m k v) k' = Val.lookup m k' := by
  have hk : (k' == k) = false := by simpa using h
  simp [Val.set, Val.lookup, List.lookup, hk, Val.lookup_filter_other m k k' h]

/-- A key of the overwriting map takes its value from there, any other key keeps the value
it had. -/
theorem Val.lookup_overwrite (values over : List (String × Val)) (k : String) :
    Val.lookup (Val.overwrite values over) k =
      match Val.lookup over k with
      | some v => some v
      | none => Val.lookup values k := by
  induction over with
  | nil => rfl
  | cons p ps ih =>
    obtain ⟨a, b⟩ := p
    have hstep : Val.overwrite values ((a, b) :: ps) = Val.set (Val.overwrite values ps) a b :=
      rfl
    rw [hstep]
    by_cases hk : k = a
    · subst hk
      simp [Val.lookup_set_self, Val.lookup, List.lookup]
    · have hb : (k == a) = false := by simpa using hk
      rw [Val.lookup_set_ne _ _ _ _ hk, ih]
      simp [Val.lookup, List.lookup, hb]

/-- One step of `MergeMaps` where both values are `map[string]interface{}`. -/
theorem MergeMaps_cons_maps (base rest baseMap overlayMap : List (String × Val)) (k : String)
    (hb : Val.lookup base k = some (.map baseMap)) :
    MergeMaps base ((k, .map overlayMap) :: rest)
      = Val.set (MergeMaps base rest) k (.map (MergeMaps baseMap overlayMap)) := by
  rw [MergeMaps]
  simp only [hb]

/-- One step of `MergeMaps` where the base value or the overlay value is not a
`map[string]interface{}`. -/
theorem MergeMaps_cons_other (base rest : List (String × Val)) (k : String) (v : Val)
    (hn : ∀ baseMap overlayMap, Val.lookup base k = some (.map baseMap) →
      v = .map overlayMap → False) :
    MergeMaps base ((k, v) :: rest) = Val.set (MergeMaps base rest) k v := by
  rw [MergeMaps]
  exact hn

/-- A key that the overlay does not hold keeps its base value under `MergeMaps`. -/
theorem MergeMaps_lookup_none (base overlay : List (String × Val)) (k : String)
    (h : Val.lookup overlay k = none) :
    Val.lookup (MergeMaps base overlay) k = Val.lookup base k := by
  induction overlay with
  | nil => simp [MergeMaps]
  | cons p ps ih =>
    obtain ⟨a, b⟩ := p
    by_cases hk : k = a
    · subst hk
      simp [Val.lookup, List.lookup] at h
    · have hb : (k == a) = false := by simpa using hk
      have hps : Val.lookup ps k = none := by
        simpa [Val.lookup, List.lookup, hb] using h
      by_cases hm : ∃ baseMap overlayMap, Val.lookup base a = some (.map baseMap) ∧
          b = .map overlayMap
      · obtain ⟨baseMap, overlayMap, h1, h2⟩ := hm
        subst h2
        rw [MergeMaps_cons_maps _ _ _ _ _ h1, Val.lookup_set_ne _ _ _ _ hk, ih hps]
      · rw [MergeMaps_cons_other _ _ _ _ (fun bm om h1 h2 => hm ⟨bm, om, h1, h2⟩),
          Val.lookup_set_ne _ _ _ _ hk, ih hps]

/-- A key under which base and overlay both hold a `map[string]interface{}` holds the
merge of the two maps. -/
theorem MergeMaps_lookup_maps (base overlay baseMap overlayMap : List (String × Val))
    (k : String) (hb : Val.lookup base k = some (.map baseMap))
    (ho : Val.lookup overlay k = some (.map overlayMap)) :
    Val.lookup (MergeMaps base overlay) k = some (.map (MergeMaps baseMap overlayMap)) := by
  induction overlay with
  | nil => simp [Val.lookup, List.lookup] at ho
  | cons p ps ih =>
    obtain ⟨a, b⟩ := p
    by_cases hk : k = a
    · subst hk
      have hv : b = .map overlayMap := by simpa [Val.lookup, List.lookup] using ho
      subst hv
      rw [MergeMaps_cons_maps _ _ _ _ _ hb, Val.lookup_set_self]
    · have hbeq : (k == a) = false := by simpa using hk
      have hps : Val.lookup ps k = some (.map overlayMap) := by
        simpa [Val.lookup, List.lookup, hbeq] using ho
      by_cases hm : ∃ bm om, Val.lookup base a = some (.map bm) ∧ b = .map om
      · obtain ⟨bm, om, h1, h2⟩ := hm
        subst h2
        rw [MergeMaps_cons_maps _ _ _ _ _ h1, Val.lookup_set_ne _ _ _ _ hk, ih hps]
      · rw [MergeMaps_cons_other _ _ _ _ (fun bm om h1 h2 => hm ⟨bm, om, h1, h2⟩),
          Val.lookup_set_ne _ _ _ _ hk, ih hps]

/-- A key that the overlay holds, where the base value or the overlay value is not a
`map[string]interface{}`, holds the overlay value. -/
theorem MergeMaps_lookup_other (base overlay : List (String × Val)) (k : String) (v : Val)
    (ho : Val.lookup overlay k = some v)
    (hn : ∀ baseMap overlayMap, Val.lookup base k = some (.map baseMap) →
      v = .map overlayMap → False) :
    Val.lookup (MergeMaps base overlay) k = some v := by
  induction overlay with
  | nil => simp [Val.lookup, List.lookup] at ho
  | cons p ps ih =>
    obtain ⟨a, b⟩ := p
    by_cases hk : k = a
    · subst hk
      have hv : b = v := by simpa [Val.lookup, List.lookup] using ho
      subst hv
      rw [MergeMaps_cons_other _ _ _ _ hn, Val.lookup_set_self]
    · have hbeq : (k == a) = false := by simpa using hk
      have hps : Val.lookup ps k = some v := by
        simpa [Val.lookup, List.lookup, hbeq] using ho
      by_cases hm : ∃ bm om, Val.lookup base a = some (.map bm) ∧ b = .map om
      · obtain ⟨bm, om, h1, h2⟩ := hm
        subst h2
        rw [MergeMaps_cons_maps _ _ _ _ _ h1, Val.lookup_set_ne _ _ _ _ hk, ih hps]
      · rw [MergeMaps_cons_other _ _ _ _ (fun bm om h1 h2 => hm ⟨bm, om, h1, h2⟩),
          Val.lookup_set_ne _ _ _ _ hk, ih hps]

/-! ## Theorems: the auth-config cleanup lock -/

namespace Auth

/-- The call log of `setCleanupAnnotation`: the setter mark, one `Get`, and at most one
`Update` after it. -/
theorem setCleanupAnnotation_calls (ac : Controller) (obj : AuthConfig) (value : String) :
    ( setCleanupAnnotation ac obj value).calls = [.setter obj value, .get obj.Name] ∨
      ∃ o, ( setCleanupAnnotation ac obj value).calls
        = [.setter obj value, .get obj.Name, .update obj.Name o] := by
  unfold setCleanupAnnotation
  dsimp only
  split
  · exact Or.inl rfl
  · split
    · split
      · exact Or.inr ⟨_, rfl⟩
      · exact Or.inr ⟨_, rfl⟩
    · exact Or.inl rfl
  · exact Or.inl rfl

theorem setCleanupAnnotation_cleanup_count (ac : Controller) (obj : AuthConfig) (value : String) :
    ( setCleanupAnnotation ac obj value).calls.countP Call.isCleanup = 0 := by
  rcases setCleanupAnnotation_calls ac obj value with h | ⟨o, h⟩ <;> rw [h] <;> rfl

theorem setCleanupAnnotation_setterValues (ac : Controller) (obj : AuthConfig) (value : String) :
    setterValues ( setCleanupAnnotation ac obj value).calls = [value] := by
  rcases setCleanupAnnotation_calls ac obj value with h | ⟨o, h⟩ <;> rw [h] <;> rfl

/-- C1: for an auth config whose cleanup annotation is `user-locked`, with either value of
`Enabled`, `sync` returns the same object with a nil error and an empty call log: no Get,
no Update, no setter call and no cleanup. -/
theorem sync_user_locked_noop (ac : Controller) (key : String) (obj : AuthConfig)
    (h : obj.Annotations.get CleanupAnnotation = CleanupUserLocked) :
    (sync ac key (some obj)).ret = some (.authConfig obj) ∧
      (sync ac key (some obj)).err = none ∧
      (sync ac key (some obj)).calls = [] := by
  cases he : obj.Enabled <;>
    simp [sync, h, he, CleanupUserLocked, CleanupRancherLocked, CleanupUnlocked]

theorem sync_user_locked_noop_witness :
    (sampleConfig false CleanupUserLocked).Annotations.get CleanupAnnotation
        = CleanupUserLocked ∧
      (sync (sampleController storedWithAnnotations none) "github"
        (some (sampleConfig false CleanupUserLocked))).calls = [] :=
  ⟨by decide, (sync_user_locked_noop _ "github" (sampleConfig false CleanupUserLocked)
    (by decide)).2.2⟩

/-- C2: one call of `sync` on a non-nil auth config invokes the cleanup service exactly
once when `Enabled` is false and the cleanup annotation reads `unlocked`, and not at all
in every other case. -/
theorem sync_cleanup_count (ac : Controller) (key : String) (obj : AuthConfig) :
    (sync ac key (some obj)).calls.countP Call.isCleanup =
      if obj.Enabled = false ∧ obj.Annotations.get CleanupAnnotation = CleanupUnlocked
      then 1 else 0 := by
  have hset := setCleanupAnnotation_cleanup_count ac obj
  unfold sync
  dsimp only
  by_cases h0 : obj.Annotations.get CleanupAnnotation = ""
  · simp [h0, hset, CleanupUnlocked]
  · rw [if_neg h0]
    by_cases h1 : obj.Enabled = true ∧ obj.Annotations.get CleanupAnnotation = CleanupRancherLocked
    · have hne : ¬ obj.Enabled = false := by simp [h1.1]
      simp [h1, hne, hset]
    · rw [if_neg h1]
      by_cases h2 : obj.Enabled = false
      · rw [if_pos h2]
        by_cases h3 : obj.Annotations.get CleanupAnnotation = CleanupUnlocked
        · have hr : obj.Enabled = false ∧
              obj.Annotations.get CleanupAnnotation = CleanupUnlocked := ⟨h2, h3⟩
          rw [if_pos h3, if_pos hr]
          split
          · rfl
          · simp [Outcome.after, List.countP_cons, Call.isCleanup, hset]
        · have hr : ¬ (obj.Enabled = false ∧
              obj.Annotations.get CleanupAnnotation = CleanupUnlocked) := fun h => h3 h.2
          rw [if_neg h3, if_neg hr]
          split_ifs <;> rfl
      · have hr : ¬ (obj.Enabled = false ∧
            obj.Annotations.get CleanupAnnotation = CleanupUnlocked) := fun h => h2 h.1
        rw [if_neg h2, if_neg hr]
        rfl

/-- C3: with `Enabled` false and annotation `unlocked`, a failing cleanup makes `sync`
return the input object together with exactly the cleanup error; the call log holds the
cleanup call only, so neither Get nor Update reaches the store. -/
theorem sync_cleanup_failure (ac : Controller) (key : String) (obj : AuthConfig) (e : Err)
    (hE : obj.Enabled = false)
    (hA : obj.Annotations.get CleanupAnnotation = CleanupUnlocked)
    (hR : ac.Run obj = some e) :
    (sync ac key (some obj)).ret = some (.authConfig obj) ∧
      (sync ac key (some obj)).err = some e ∧
      (sync ac key (some obj)).calls = [.cleanup obj] ∧
      (sync ac key (some obj)).calls.countP Call.isGet = 0 ∧
      (sync ac key (some obj)).calls.countP Call.isUpdate = 0 := by
  have hs : sync ac key (some obj) = ⟨some (.authConfig obj), some e, [.cleanup obj]⟩ := by
    simp [sync, hE, hA, hR, CleanupUnlocked]
  rw [hs]
  exact ⟨rfl, rfl, rfl, rfl, rfl⟩

theorem sync_cleanup_failure_witness :
    (sync (sampleController storedWithAnnotations (some (.other "cleanup failed"))) "github"
        (some (sampleConfig false CleanupUnlocked))).err = some (.other "cleanup failed") ∧
      (sync (sampleController storedWithAnnotations (some (.other "cleanup failed"))) "github"
        (some (sampleConfig false CleanupUnlocked))).calls
        = [.cleanup (sampleConfig false CleanupUnlocked)] :=
  have h := sync_cleanup_failure (sampleController storedWithAnnotations
    (some (.other "cleanup failed"))) "github" (sampleConfig false CleanupUnlocked)
    (.other "cleanup failed") rfl (by decide) rfl
  ⟨h.2.1, h.2.2.1⟩

/-- C4: `sync` hands the setter the value of the transition table and returns what the
setter returns: `unlocked` for an unset or empty annotation with `Enabled` true,
`rancher-locked` for an unset or empty annotation with `Enabled` false, `unlocked` for
`rancher-locked` with `Enabled` true, and, after a successful cleanup, `rancher-locked`
for `unlocked` with `Enabled` false (the cleanup call then precedes the setter's calls). -/
theorem sync_transition_table (ac : Controller) (key : String) (obj : AuthConfig) :
    (obj.Annotations.get CleanupAnnotation = "" → obj.Enabled = true →
        sync ac key (some obj) = setCleanupAnnotation ac obj CleanupUnlocked) ∧
      (obj.Annotations.get CleanupAnnotation = "" → obj.Enabled = false →
        sync ac key (some obj) = setCleanupAnnotation ac obj CleanupRancherLocked) ∧
      (obj.Annotations.get CleanupAnnotation = CleanupRancherLocked → obj.Enabled = true →
        sync ac key (some obj) = setCleanupAnnotation ac obj CleanupUnlocked) ∧
      (obj.Annotations.get CleanupAnnotation = CleanupUnlocked → obj.Enabled = false →
        ac.Run obj = none →
        sync ac key (some obj)
          = ( setCleanupAnnotation ac obj CleanupRancherLocked).after [.cleanup obj]) := by
  refine ⟨?_, ?_, ?_, ?_⟩
  · intro hA hE
    simp [sync, hA, hE]
  · intro hA hE
    simp [sync, hA, hE]
  · intro hA hE
    simp [sync, hA, hE, CleanupRancherLocked]
  · intro hA hE hR
    simp [sync, hA, hE, hR, CleanupUnlocked]

theorem sync_transition_table_witness :
    sync (sampleController storedWithAnnotations none) "k"
        (some { Name := "github", Enabled := true, Annotations := [] })
        = setCleanupAnnotation (sampleController storedWithAnnotations none)
            { Name := "github", Enabled := true, Annotations := [] } CleanupUnlocked ∧
      sync (sampleController storedWithAnnotations none) "k"
        (some { Name := "github", Enabled := false, Annotations := [] })
        = setCleanupAnnotation (sampleController storedWithAnnotations none)
            { Name := "github", Enabled := false, Annotations := [] } CleanupRancherLocked ∧
      sync (sampleController storedWithAnnotations none) "k"
        (some (sampleConfig true CleanupRancherLocked))
        = setCleanupAnnotation (sampleController storedWithAnnotations none)
            (sampleConfig true CleanupRancherLocked) CleanupUnlocked ∧
      sync (sampleController storedWithAnnotations none) "k"
        (some (sampleConfig false CleanupUnlocked))
        = ( setCleanupAnnotation (sampleController storedWithAnnotations none)
            (sampleConfig false CleanupUnlocked) CleanupRancherLocked).after
            [.cleanup (sampleConfig false CleanupUnlocked)] :=
  ⟨(sync_transition_table (sampleController storedWithAnnotations none) "k"
      { Name := "github", Enabled := true, Annotations := [] }).1 (by decide) rfl,
    (sync_transition_table (sampleController storedWithAnnotations none) "k"
      { Name := "github", Enabled := false, Annotations := [] }).2.1 (by decide) rfl,
    (sync_transition_table (sampleController storedWithAnnotations none) "k"
      (sampleConfig true CleanupRancherLocked)).2.2.1 (by decide) rfl,
    (sync_transition_table (sampleController storedWithAnnotations none) "k"
      (sampleConfig false CleanupUnlocked)).2.2.2 (by decide) rfl rfl⟩

/-- Where the stored object already has an annotations map under `metadata`, the object
handed to `Update` carries the requested value under the cleanup annotation. -/
theorem setCleanupAnnotation_existing_map (ac : Controller) (obj : AuthConfig) (value : String)
    (content metadata annotations : List (String × Val))
    (hG : ac.Get obj.Name = (some (.unstructured content), none))
    (hM : Val.lookup content "metadata" = some (.map metadata))
    (hA : Val.lookup metadata "annotations" = some (.map annotations)) :
    ∃ o, updatedObjects ( setCleanupAnnotation ac obj value).calls = [o] ∧
      cleanupAnnotationOf o = some (.str value) := by
  refine ⟨.unstructured (Val.set content "metadata" (.map (Val.set metadata "annotations"
    (.map (Val.set annotations CleanupAnnotation (.str value)))))), ?_, ?_⟩
  · simp [ setCleanupAnnotation, hG, hM, hA, updatedObjects]
  · simp [cleanupAnnotationOf, Val.lookup_set_self]

/-- C5: on a stored auth config whose metadata has no annotations map, `sync` of a
disabled config without cleanup annotation asks the setter for `rancher-locked` and runs
no cleanup, yet the one object handed to `Update` has no cleanup annotation: the fresh
annotations map is never put into `metadata`. -/
theorem sync_unset_disabled_update_lacks_annotation :
    setterValues (sync (sampleController storedWithoutAnnotations none) "github"
        (some { Name := "github", Enabled := false, Annotations := [] })).calls
        = [CleanupRancherLocked] ∧
      (updatedObjects (sync (sampleController storedWithoutAnnotations none) "github"
        (some { Name := "github", Enabled := false, Annotations := [] })).calls).map
          cleanupAnnotationOf = [none] ∧
      (sync (sampleController storedWithoutAnnotations none) "github"
        (some { Name := "github", Enabled := false, Annotations := [] })).calls.countP
          Call.isCleanup = 0 := by
  refine ⟨rfl, rfl, rfl⟩

/-- C6: every value that `sync` hands to the annotation setter is `unlocked` or
`rancher-locked`, whatever the auth config, its `Enabled` flag and the answers of the
cleanup service and of the store. -/
theorem sync_setter_values (ac : Controller) (key : String) (obj : Option AuthConfig)
    (v : String) (hv : v ∈ setterValues (sync ac key obj).calls) :
    v = CleanupUnlocked ∨ v = CleanupRancherLocked := by
  have hset := setCleanupAnnotation_setterValues ac
  cases obj with
  | none => simp [sync, setterValues] at hv
  | some obj =>
    unfold sync at hv
    dsimp only at hv
    by_cases h0 : obj.Annotations.get CleanupAnnotation = ""
    · rw [if_pos h0, hset] at hv
      cases he : obj.Enabled <;> simp [he] at hv <;> simp [hv]
    · rw [if_neg h0] at hv
      by_cases h1 : obj.Enabled = true ∧
          obj.Annotations.get CleanupAnnotation = CleanupRancherLocked
      · rw [if_pos h1, hset] at hv
        simp at hv
        exact Or.inl hv
      · rw [if_neg h1] at hv
        by_cases h2 : obj.Enabled = false
        · rw [if_pos h2] at hv
          by_cases h3 : obj.Annotations.get CleanupAnnotation = CleanupUnlocked
          · rw [if_pos h3] at hv
            split at hv
            · simp [setterValues] at hv
            · have hc : setterValues (( setCleanupAnnotation ac obj CleanupRancherLocked).after
                  [.cleanup obj]).calls = [CleanupRancherLocked] := by
                simp [Outcome.after, setterValues, hset]
              rw [hc] at hv
              simp at hv
              exact Or.inr hv
          · rw [if_neg h3] at hv
            split_ifs at hv <;> simp [setterValues] at hv
        · rw [if_neg h2] at hv
          simp [setterValues] at hv

theorem sync_setter_values_witness :
    CleanupRancherLocked ∈ setterValues (sync (sampleController storedWithAnnotations none)
        "github" (some (sampleConfig false CleanupUnlocked))).calls ∧
      (CleanupRancherLocked = CleanupUnlocked ∨ CleanupRancherLocked = CleanupRancherLocked) :=
  ⟨by simp [sync, sampleConfig, sampleController, StrMap.get, CleanupAnnotation,
      CleanupUnlocked, Outcome.after, setterValues, setCleanupAnnotation_setterValues],
    sync_setter_values (sampleController storedWithAnnotations none) "github"
      (some (sampleConfig false CleanupUnlocked)) CleanupRancherLocked
      (by simp [sync, sampleConfig, sampleController, StrMap.get, CleanupAnnotation,
        CleanupUnlocked, Outcome.after, setterValues, setCleanupAnnotation_setterValues])⟩

/-- One call of `sync` invokes the cleanup service at most once. -/
theorem sync_cleanup_le_one (ac : Controller) (key : String) (obj : AuthConfig) :
    (sync ac key (some obj)).calls.countP Call.isCleanup ≤ 1 := by
  have hset := setCleanupAnnotation_cleanup_count ac obj
  unfold sync
  dsimp only
  split_ifs
  all_goals first
    | (rw [hset]; exact Nat.zero_le 1)
    | exact Nat.zero_le 1
    | (split
       · exact Nat.le_refl 1
       · simp [Outcome.after, List.countP_cons, Call.isCleanup, hset])

/-- C19: for a nil auth config `sync` returns a nil object and a nil error and makes no
call: no cleanup, no Get, no Update. -/
theorem sync_nil_noop (ac : Controller) (key : String) :
    (sync ac key none).ret = none ∧
      (sync ac key none).err = none ∧
      (sync ac key none).calls = [] ∧
      (sync ac key none).calls.countP Call.isCleanup = 0 ∧
      (sync ac key none).calls.countP Call.isGet = 0 ∧
      (sync ac key none).calls.countP Call.isUpdate = 0 :=
  ⟨rfl, rfl, rfl, rfl, rfl, rfl⟩

/-- C20: the cleanup state machine is at a fixed point after one step.  When `sync` hands
the value `v` to the annotation setter, `sync` on the same config with the cleanup
annotation set to `v` and the same `Enabled` flag makes no call at all (no annotation
write, no cleanup), whatever the collaborators answer; the two runs together invoke
cleanup at most once. -/
theorem sync_fixed_point (ac ac' : Controller) (key : String) (obj : AuthConfig) (v : String)
    (hv : v ∈ setterValues (sync ac key (some obj)).calls) :
    (sync ac' key (some { obj with Annotations := obj.Annotations.set CleanupAnnotation v })).calls
        = [] ∧
      ((sync ac key (some obj)).calls ++
        (sync ac' key (some { obj with
          Annotations := obj.Annotations.set CleanupAnnotation v })).calls).countP
        Call.isCleanup ≤ 1 := by
  have hset := setCleanupAnnotation_setterValues ac
  have hfix : (sync ac' key (some { obj with
      Annotations := obj.Annotations.set CleanupAnnotation v })).calls = [] := by
    unfold sync at hv
    dsimp only at hv
    by_cases h0 : obj.Annotations.get CleanupAnnotation = ""
    · rw [if_pos h0, hset] at hv
      cases he : obj.Enabled <;> simp [he] at hv <;> subst hv <;>
        simp [sync, StrMap.get_set_self, he, CleanupUnlocked, CleanupRancherLocked,
          CleanupUserLocked]
    · rw [if_neg h0] at hv
      by_cases h1 : obj.Enabled = true ∧
          obj.Annotations.get CleanupAnnotation = CleanupRancherLocked
      · rw [if_pos h1, hset] at hv
        simp at hv
        subst hv
        simp [sync, StrMap.get_set_self, h1.1, CleanupUnlocked, CleanupRancherLocked]
      · rw [if_neg h1] at hv
        by_cases h2 : obj.Enabled = false
        · rw [if_pos h2] at hv
          by_cases h3 : obj.Annotations.get CleanupAnnotation = CleanupUnlocked
          · rw [if_pos h3] at hv
            split at hv
            · simp [setterValues] at hv
            · have hc : setterValues (( setCleanupAnnotation ac obj CleanupRancherLocked).after
                  [.cleanup obj]).calls = [CleanupRancherLocked] := by
                simp [Outcome.after, setterValues, hset]
              rw [hc] at hv
              simp at hv
              subst hv
              simp [sync, StrMap.get_set_self, h2, CleanupUnlocked, CleanupRancherLocked]
          · rw [if_neg h3] at hv
            split_ifs at hv <;> simp [setterValues] at hv
        · rw [if_neg h2] at hv
          simp [setterValues] at hv
  refine ⟨hfix, ?_⟩
  rw [hfix, List.append_nil]
  exact sync_cleanup_le_one ac key obj

theorem sync_fixed_point_witness :
    CleanupRancherLocked ∈ setterValues (sync (sampleController storedWithAnnotations none)
        "github" (some (sampleConfig false CleanupUnlocked))).calls ∧
      (sync (sampleController storedWithAnnotations none) "github"
        (some { sampleConfig false CleanupUnlocked with
          Annotations := (sampleConfig false CleanupUnlocked).Annotations.set
            CleanupAnnotation CleanupRancherLocked })).calls = [] :=
  ⟨by simp [sync, sampleConfig, sampleController, StrMap.get, CleanupAnnotation,
      CleanupUnlocked, Outcome.after, setterValues, setCleanupAnnotation_setterValues],
    (sync_fixed_point (sampleController storedWithAnnotations none)
      (sampleController storedWithAnnotations none) "github"
      (sampleConfig false CleanupUnlocked) CleanupRancherLocked
      (by simp [sync, sampleConfig, sampleController, StrMap.get, CleanupAnnotation,
        CleanupUnlocked, Outcome.after, setterValues, setCleanupAnnotation_setterValues])).1⟩

end Auth

/-! ## Theorems: the cross-cluster config propagator -/

namespace SystemCharts

/-- C7, as stated, fails: the downstream ConfigMap has non-nil Data without the webhook
key, the matching cluster has a non-nil chart-value map without the webhook key (so its
webhook value string is empty), and `onClusterChange` issues no Update. -/
theorem onClusterChange_absent_key_empty_value :
    (sampleCluster [("other-chart", "x")]).Name
        = (storeController "test-cluster" (some otherChartConfigMap) none none).clusterName ∧
      (sampleCluster [("other-chart", "x")]).ChartValues ≠ none ∧
      (storeController "test-cluster" (some otherChartConfigMap) none none).cacheGet
        namespace_System chart.CustomValueMapName = (some otherChartConfigMap, none) ∧
      (otherChartConfigMap.Data.getD []).get? chart.WebhookChartName = none ∧
      (onClusterChange (storeController "test-cluster" (some otherChartConfigMap) none none)
        "" (some (sampleCluster [("other-chart", "x")]))).calls.countP Call.isUpdate = 0 := by
  decide

/-- C7, amended: for a matching cluster with a non-nil chart-value map and a found
downstream ConfigMap whose Data is nil, or whose value read under the webhook key (the
empty string when the key is absent) differs from the cluster's webhook value string,
`onClusterChange` issues exactly one Update and no Create; the updated ConfigMap differs
from the one read in its Data only, where the webhook key maps to the cluster's value and
every other key maps to what it mapped to before. -/
theorem onClusterChange_update (c : Controller) (key : String) (cl : Cluster)
    (chartValues : StrMap) (cm : ConfigMap)
    (hN : cl.Name = c.clusterName) (hV : cl.ChartValues = some chartValues)
    (hG : c.cacheGet namespace_System chart.CustomValueMapName = (some cm, none))
    (hD : cm.Data = none ∨ ∃ data, cm.Data = some data ∧
      data.get chart.WebhookChartName ≠ chartValues.get chart.WebhookChartName) :
    ∃ data' : StrMap,
      (onClusterChange c key (some cl)).calls
        = [.cacheGet namespace_System chart.CustomValueMapName,
            .update { cm with Data := some data' }] ∧
      (onClusterChange c key (some cl)).calls.countP Call.isUpdate = 1 ∧
      (onClusterChange c key (some cl)).calls.countP Call.isCreate = 0 ∧
      data'.get? chart.WebhookChartName = some (chartValues.get chart.WebhookChartName) ∧
      ∀ k, k ≠ chart.WebhookChartName → data'.get? k = (cm.Data.getD []).get? k := by
  have hcalls : ∀ d : StrMap, (cm.Data = none ∧ d = []) ∨ (cm.Data = some d ∧
      d.get chart.WebhookChartName ≠ chartValues.get chart.WebhookChartName) →
      (onClusterChange c key (some cl)).calls
        = [.cacheGet namespace_System chart.CustomValueMapName,
            .update { cm with Data := some (d.set chart.WebhookChartName
              (chartValues.get chart.WebhookChartName)) }] := by
    intro d hd
    unfold onClusterChange
    simp only [hN, hV, hG, ne_eq, not_true_eq_false, if_false]
    rcases hd with ⟨h1, h2⟩ | ⟨h1, h2⟩
    · subst h2
      simp only [h1]
      split <;> rfl
    · simp only [h1, if_neg h2]
      split <;> rfl
  rcases hD with h | ⟨data, h, hne⟩
  · refine ⟨StrMap.set [] chart.WebhookChartName (chartValues.get chart.WebhookChartName),
      hcalls [] (Or.inl ⟨h, rfl⟩), ?_, ?_, StrMap.get?_set_self _ _ _, ?_⟩
    · rw [hcalls [] (Or.inl ⟨h, rfl⟩)]; rfl
    · rw [hcalls [] (Or.inl ⟨h, rfl⟩)]; rfl
    · intro k hk
      rw [StrMap.get?_set_ne _ _ _ _ hk, h]
      rfl
  · refine ⟨data.set chart.WebhookChartName (chartValues.get chart.WebhookChartName),
      hcalls data (Or.inr ⟨h, hne⟩), ?_, ?_, StrMap.get?_set_self _ _ _, ?_⟩
    · rw [hcalls data (Or.inr ⟨h, hne⟩)]; rfl
    · rw [hcalls data (Or.inr ⟨h, hne⟩)]; rfl
    · intro k hk
      rw [StrMap.get?_set_ne _ _ _ _ hk, h]
      rfl

theorem onClusterChange_update_witness :
    ∃ data' : StrMap,
      (onClusterChange (storeController "test-cluster" (some populatedConfigMap) none none) ""
        (some (sampleCluster [(chart.WebhookChartName, "newKey: newValue")]))).calls
        = [.cacheGet namespace_System chart.CustomValueMapName,
            .update { populatedConfigMap with Data := some data' }] ∧
      data'.get? chart.WebhookChartName = some "newKey: newValue" ∧
      data'.get? "other-chart" = some "otherKey:otherValues" :=
  have h := onClusterChange_update
    (storeController "test-cluster" (some populatedConfigMap) none none) ""
    (sampleCluster [(chart.WebhookChartName, "newKey: newValue")])
    [(chart.WebhookChartName, "newKey: newValue")] populatedConfigMap rfl rfl (by decide)
    (Or.inr ⟨_, rfl, by decide⟩)
  h.elim fun d hd => ⟨d, hd.1, hd.2.2.2.1, (hd.2.2.2.2 "other-chart" (by decide)).trans rfl⟩

/-- C8: for a matching cluster with a non-nil chart-value map, a NotFound answer of the
cached read makes `onClusterChange` issue exactly one Create and no Update; the created
ConfigMap has the fixed custom-values name in the system namespace and Data with the one
entry webhook chart name to the cluster's webhook value string; an accepted Create returns
the input cluster with a nil error, a refused Create a nil cluster with a non-nil error. -/
theorem onClusterChange_not_found_creates (c : Controller) (key : String) (cl : Cluster)
    (chartValues : StrMap) (x : Option ConfigMap) (e : Err)
    (hN : cl.Name = c.clusterName) (hV : cl.ChartValues = some chartValues)
    (hG : c.cacheGet namespace_System chart.CustomValueMapName = (x, some e))
    (hNF : IsNotFound e = true) :
    ∃ created : ConfigMap,
      (onClusterChange c key (some cl)).calls
        = [.cacheGet namespace_System chart.CustomValueMapName, .create created] ∧
      (onClusterChange c key (some cl)).calls.countP Call.isCreate = 1 ∧
      (onClusterChange c key (some cl)).calls.countP Call.isUpdate = 0 ∧
      created.Name = chart.CustomValueMapName ∧
      created.Namespace = namespace_System ∧
      created.Data
        = some [(chart.WebhookChartName, chartValues.get chart.WebhookChartName)] ∧
      ((c.Create created).2 = none →
        (onClusterChange c key (some cl)).ret = some cl ∧
          (onClusterChange c key (some cl)).err = none) ∧
      ((c.Create created).2 ≠ none →
        (onClusterChange c key (some cl)).ret = none ∧
          (onClusterChange c key (some cl)).err ≠ none) := by
  refine ⟨{ Name := chart.CustomValueMapName
            Namespace := namespace_System
            Labels := some [("app.kubernetes.io/part-of", "rancher")]
            Data := some [(chart.WebhookChartName, chartValues.get chart.WebhookChartName)] },
    ?_⟩
  unfold onClusterChange createConfigMap
  simp only [hN, hV, hG, hNF, ne_eq, not_true_eq_false, if_false, if_true]
  cases hC : (c.Create { Name := chart.CustomValueMapName
                         Namespace := namespace_System
                         Labels := some [("app.kubernetes.io/part-of", "rancher")]
                         Data := some [(chart.WebhookChartName,
                           chartValues.get chart.WebhookChartName)] }).2 with
  | none => simp [Call.isCreate, Call.isUpdate]
  | some e' => simp [Call.isCreate, Call.isUpdate]

theorem onClusterChange_not_found_creates_witness :
    ∃ created : ConfigMap,
      (onClusterChange (storeController "test-cluster" none none none) ""
        (some (sampleCluster [(chart.WebhookChartName, "newKey: newValue")]))).calls
        = [.cacheGet namespace_System chart.CustomValueMapName, .create created] ∧
      created.Data = some [(chart.WebhookChartName, "newKey: newValue")] ∧
      (onClusterChange (storeController "test-cluster" none none none) ""
        (some (sampleCluster [(chart.WebhookChartName, "newKey: newValue")]))).ret
        = some (sampleCluster [(chart.WebhookChartName, "newKey: newValue")]) :=
  have h := onClusterChange_not_found_creates
    (storeController "test-cluster" none none none) ""
    (sampleCluster [(chart.WebhookChartName, "newKey: newValue")])
    [(chart.WebhookChartName, "newKey: newValue")] none
    (.notFound chart.CustomValueMapName) rfl rfl (by decide) rfl
  h.elim fun cm hcm => ⟨cm, hcm.1, hcm.2.2.2.2.2.1.trans rfl, (hcm.2.2.2.2.2.2.1 rfl).1⟩

/-- C9: propagation is idempotent.  Whatever the cluster object and the downstream store
(ConfigMap absent, present with nil Data, present with any Data), when a first run of
`onClusterChange` returns no error, a second run with the same cluster object against the
store left by the first issues no Create and no Update, and the first run issued at most
one write. -/
theorem onClusterChange_idempotent (name key : String) (cluster : Option Cluster)
    (store : Option ConfigMap) (ce ue ce' ue' : Option Err)
    (hOk : (onClusterChange (storeController name store ce ue) key cluster).err = none) :
    (onClusterChange (storeController name
        (storeAfter store (onClusterChange (storeController name store ce ue) key cluster).calls)
        ce' ue') key cluster).calls.countP Call.isCreate = 0 ∧
      (onClusterChange (storeController name
        (storeAfter store (onClusterChange (storeController name store ce ue) key cluster).calls)
        ce' ue') key cluster).calls.countP Call.isUpdate = 0 ∧
      (onClusterChange (storeController name store ce ue) key cluster).calls.countP
        (fun call => call.isCreate || call.isUpdate) ≤ 1 := by
  cases cluster with
  | none => simp [onClusterChange]
  | some cl =>
    obtain ⟨n, cv⟩ := cl
    by_cases hn : n = name
    · subst hn
      cases cv with
      | none => simp [onClusterChange, storeController]
      | some cv =>
        cases store with
        | none =>
          cases ce with
          | some e =>
            simp [onClusterChange, storeController, createConfigMap, IsNotFound] at hOk
          | none =>
            simp [onClusterChange, storeController, createConfigMap, IsNotFound, storeAfter,
              StrMap.get, Call.isCreate, Call.isUpdate]
        | some cm =>
          obtain ⟨a, b, l, d⟩ := cm
          cases d with
          | none =>
            cases ue with
            | some e => simp [onClusterChange, storeController] at hOk
            | none =>
              simp [onClusterChange, storeController, storeAfter, StrMap.get_set_self,
                Call.isCreate, Call.isUpdate]
          | some d =>
            by_cases hd : d.get chart.WebhookChartName = cv.get chart.WebhookChartName
            · simp [onClusterChange, storeController, storeAfter, hd,
                Call.isCreate, Call.isUpdate]
            · cases ue with
              | some e => simp [onClusterChange, storeController, hd] at hOk
              | none =>
                simp [onClusterChange, storeController, storeAfter, hd, StrMap.get_set_self,
                  Call.isCreate, Call.isUpdate]
    · simp [onClusterChange, storeController, hn]

theorem onClusterChange_idempotent_witness :
    (onClusterChange (storeController "test-cluster" (some populatedConfigMap) none none) ""
        (some (sampleCluster [(chart.WebhookChartName, "newKey: newValue")]))).calls.countP
        Call.isUpdate = 1 ∧
      (onClusterChange (storeController "test-cluster"
        (storeAfter (some populatedConfigMap)
          (onClusterChange (storeController "test-cluster" (some populatedConfigMap) none none)
            "" (some (sampleCluster [(chart.WebhookChartName, "newKey: newValue")]))).calls)
        none none) ""
        (some (sampleCluster [(chart.WebhookChartName, "newKey: newValue")]))).calls.countP
        Call.isUpdate = 0 :=
  ⟨by decide,
    (onClusterChange_idempotent "test-cluster" ""
      (some (sampleCluster [(chart.WebhookChartName, "newKey: newValue")]))
      (some populatedConfigMap) none none none none (by decide)).2.1⟩

/-- C10: for a matching cluster with a non-nil chart-value map, a cached read failing with
an error that is not NotFound makes `onClusterChange` return a nil cluster and an error
wrapping the read error; the call log holds the read only, so no Create and no Update. -/
theorem onClusterChange_read_error (c : Controller) (key : String) (cl : Cluster)
    (chartValues : StrMap) (x : Option ConfigMap) (e : Err)
    (hN : cl.Name = c.clusterName) (hV : cl.ChartValues = some chartValues)
    (hG : c.cacheGet namespace_System chart.CustomValueMapName = (x, some e))
    (hNF : IsNotFound e = false) :
    (onClusterChange c key (some cl)).ret = none ∧
      (∃ msg, (onClusterChange c key (some cl)).err = some (.wrap msg e)) ∧
      (onClusterChange c key (some cl)).calls
        = [.cacheGet namespace_System chart.CustomValueMapName] ∧
      (onClusterChange c key (some cl)).calls.countP Call.isCreate = 0 ∧
      (onClusterChange c key (some cl)).calls.countP Call.isUpdate = 0 := by
  unfold onClusterChange
  simp only [hN, hV, hG, hNF, ne_eq, not_true_eq_false, if_false]
  exact ⟨rfl, ⟨_, rfl⟩, rfl, rfl, rfl⟩

theorem onClusterChange_read_error_witness :
    (onClusterChange (failingReadController (.other "test error")) ""
        (some (sampleCluster [(chart.WebhookChartName, "newKey: newValue")]))).ret = none ∧
      (onClusterChange (failingReadController (.other "test error")) ""
        (some (sampleCluster [(chart.WebhookChartName, "newKey: newValue")]))).calls
        = [.cacheGet namespace_System chart.CustomValueMapName] :=
  have h := onClusterChange_read_error (failingReadController (.other "test error")) ""
    (sampleCluster [(chart.WebhookChartName, "newKey: newValue")])
    [(chart.WebhookChartName, "newKey: newValue")] none (.other "test error")
    rfl rfl rfl rfl
  ⟨h.1, h.2.2.1⟩

/-- C11: for a cluster object that is nil, whose name differs from the propagator's
cluster name, or whose chart-value map is nil, `onClusterChange` returns the input object
with a nil error and makes no call: no cache read, no Create, no Update. -/
theorem onClusterChange_ignored (c : Controller) (key : String) (cluster : Option Cluster)
    (h : cluster = none ∨
      ∃ cl, cluster = some cl ∧ (cl.Name ≠ c.clusterName ∨ cl.ChartValues = none)) :
    (onClusterChange c key cluster).ret = cluster ∧
      (onClusterChange c key cluster).err = none ∧
      (onClusterChange c key cluster).calls = [] ∧
      (onClusterChange c key cluster).calls.countP Call.isCacheGet = 0 ∧
      (onClusterChange c key cluster).calls.countP Call.isCreate = 0 ∧
      (onClusterChange c key cluster).calls.countP Call.isUpdate = 0 := by
  have hs : onClusterChange c key cluster = ⟨cluster, none, []⟩ := by
    rcases h with h | ⟨cl, h, hc⟩
    · subst h
      rfl
    · subst h
      unfold onClusterChange
      dsimp only
      by_cases hn : cl.Name ≠ c.clusterName
      · rw [if_pos hn]
      · rw [if_neg hn]
        rcases hc with hc | hc
        · exact absurd hc hn
        · simp [hc]
  rw [hs]
  exact ⟨rfl, rfl, rfl, rfl, rfl, rfl⟩

theorem onClusterChange_ignored_witness :
    (onClusterChange (storeController "non-matching-name" (some populatedConfigMap) none none)
        "" (some (sampleCluster [(chart.WebhookChartName, "newKey: newValue")]))).ret
        = some (sampleCluster [(chart.WebhookChartName, "newKey: newValue")]) ∧
      (onClusterChange (storeController "non-matching-name" (some populatedConfigMap) none none)
        "" (some (sampleCluster [(chart.WebhookChartName, "newKey: newValue")]))).calls = [] :=
  have h := onClusterChange_ignored
    (storeController "non-matching-name" (some populatedConfigMap) none none) ""
    (some (sampleCluster [(chart.WebhookChartName, "newKey: newValue")]))
    (Or.inr ⟨_, rfl, Or.inl (by decide)⟩)
  ⟨h.1, h.2.2.1⟩

end SystemCharts

/-! ## Theorems: the system-chart reconciler -/

namespace Dashboard

/-- On the repo `rancher-charts`, `onRepo` is the loop over the built-in chart list. -/
theorem onRepo_matching (h : Handler) (key : String) (r : ClusterRepo)
    (hr : r.Name = repoName) :
    onRepo h key (some r) = onRepoCharts h (some r) (getChartsToInstall h) := by
  simp [onRepo, hr]

/-- A chart definition that is enabled and not uninstalled starts with its `Ensure` call. -/
theorem onRepoCharts_head_ensure (h : Handler) (repo : Option ClusterRepo)
    (d : chart.Definition) (rest : List chart.Definition)
    (hE : d.Enabled ≠ some false) (hU : d.Uninstall = false) :
    (onRepoCharts h repo (d :: rest)).calls.head? = some (ensureCall h d) := by
  rw [onRepoCharts, if_neg hE]
  simp only [hU, Bool.false_eq_true, if_false]
  split <;> rfl

/-- The static values of the webhook chart hold the keys `capi`, `mcm` and the priority
class key only. -/
theorem webhookStaticValues_lookup_other (h : Handler) (k : String)
    (h1 : k ≠ "capi") (h2 : k ≠ "mcm") (h3 : k ≠ chart.PriorityClassKey) :
    Val.lookup (webhookStaticValues h) k = none := by
  have b1 : (k == "capi") = false := by simpa using h1
  have b2 : (k == "mcm") = false := by simpa using h2
  unfold webhookStaticValues
  dsimp only
  split
  · simp [Val.lookup, List.lookup, b1, b2]
  · rw [Val.lookup_set_ne _ _ _ _ h3]
    simp [Val.lookup, List.lookup, b1, b2]

/-- A key that neither the ConfigMap values nor the static values hold keeps its base value
in the values handed to `Ensure` for the webhook chart. -/
theorem webhook_values_lookup_base (h : Handler) (k : String)
    (h1 : k ≠ "capi") (h2 : k ≠ "mcm") (h3 : k ≠ chart.PriorityClassKey)
    (ho : Val.lookup (h.GetWebhookValues.1.getD []) k = none) :
    Val.lookup (Val.overwrite (baseValues h) (webhookChartValues h)) k
      = Val.lookup (baseValues h) k := by
  have hw : Val.lookup (webhookChartValues h) k = none := by
    unfold webhookChartValues
    dsimp only
    rw [MergeMaps_lookup_none _ _ _ ho]
    exact webhookStaticValues_lookup_other h k h1 h2 h3
  rw [Val.lookup_overwrite, hw]

/-- The first call of `onRepo` on the repo `rancher-charts` is the `Ensure` call for the
webhook chart, with the base values overwritten by the values of the chart's closure. -/
theorem onRepo_head (h : Handler) (key : String) (r : ClusterRepo) (hr : r.Name = repoName) :
    (onRepo h key (some r)).calls.head? =
      some (.ensure namespace_System chart.WebhookChartName h.RancherWebhookMinVersion
        (if h.RancherWebhookMinVersion ≠ "" then "" else h.RancherWebhookVersion)
        (Val.overwrite (baseValues h) (webhookChartValues h)) true
        (installImageOverride h)) := by
  rw [onRepo_matching h key r hr]
  unfold getChartsToInstall
  rw [onRepoCharts_head_ensure h (some r) _ _ (by simp) rfl]
  simp [ensureCall]

/-- C12, as stated, fails: with the registry override `myreg` and ConfigMap values holding
the top-level key `global` (here the empty string, as in the test fixture), the values
handed to `Ensure` have no `global.cattle.systemDefaultRegistry`. -/
theorem onRepo_override_global_replaced :
    (sampleHandler "myreg" ("", some (.notFound "priorityClassName"))
        (some [("global", .str "")], none) none none none).registryOverride ≠ "" ∧
      (ensuredValues (onRepo (sampleHandler "myreg" ("", some (.notFound "priorityClassName"))
        (some [("global", .str "")], none) none none none) "" (some sampleRepo)).calls).map
        (fun values => Val.path values ["global", "cattle", "systemDefaultRegistry"])
        = [none] := by
  refine ⟨by decide, ?_⟩
  simp [onRepo, sampleRepo, onRepoCharts, getChartsToInstall, sampleHandler, Handler.answer,
    ensureCall, IsNotFound, Outcome.after, ensuredValues, webhookChartValues,
    webhookStaticValues, MergeMaps, Val.overwrite, baseValues, Val.set, Val.lookup, Val.path,
    List.lookup, systemGlobalRegistry, chart.PriorityClassKey]

/-- C12, amended: for a non-empty registry override `r`, the first call of `onRepo` is the
`Ensure` call for the webhook chart with the image override `r + "/" +` the shell-image
setting; its values hold `global.cattle.systemDefaultRegistry` equal to the empty string
when the ConfigMap values have no top-level key `global`, and `image.repository` equal to
`r + "/rancher/rancher-webhook"` when they have no top-level key `image`. -/
theorem onRepo_registry_override (h : Handler) (key : String) (r : ClusterRepo)
    (hr : r.Name = repoName) (ho : h.registryOverride ≠ "") :
    ∃ minVersion exactVersion values,
      (onRepo h key (some r)).calls.head? =
        some (.ensure namespace_System chart.WebhookChartName minVersion exactVersion values
          true (h.registryOverride ++ "/" ++ h.ShellImage)) ∧
      (Val.lookup (h.GetWebhookValues.1.getD []) "global" = none →
        Val.path values ["global", "cattle", "systemDefaultRegistry"] = some (.str "")) ∧
      (Val.lookup (h.GetWebhookValues.1.getD []) "image" = none →
        Val.path values ["image", "repository"]
          = some (.str (h.registryOverride ++ "/rancher/rancher-webhook"))) := by
  refine ⟨h.RancherWebhookMinVersion,
    if h.RancherWebhookMinVersion ≠ "" then "" else h.RancherWebhookVersion,
    Val.overwrite (baseValues h) (webhookChartValues h), ?_, ?_, ?_⟩
  · rw [onRepo_head h key r hr]
    simp [installImageOverride, ho]
  · intro hg
    have hl := webhook_values_lookup_base h "global" (by decide) (by decide) (by decide) hg
    simp only [Val.path, hl]
    simp [baseValues, systemGlobalRegistry, ho, Val.set, Val.lookup, List.lookup, Val.path]
  · intro hi
    have hl := webhook_values_lookup_base h "image" (by decide) (by decide) (by decide) hi
    simp only [Val.path, hl]
    simp [baseValues, ho, Val.set, Val.lookup, List.lookup, webhookImage, String.append_assoc]

theorem onRepo_registry_override_witness :
    ∃ values,
      Val.path values ["global", "cattle", "systemDefaultRegistry"] = some (.str "") ∧
      Val.path values ["image", "repository"]
        = some (.str ("myreg" ++ "/rancher/rancher-webhook")) ∧
      ∃ minVersion exactVersion,
        (onRepo (sampleHandler "myreg" ("", some (.notFound "priorityClassName"))
          (none, some (.notFound "rancher-webhook")) none none none) ""
          (some sampleRepo)).calls.head? =
          some (.ensure namespace_System chart.WebhookChartName minVersion exactVersion values
            true ("myreg" ++ "/" ++ "rancher/shell:v0.1.20")) :=
  (onRepo_registry_override (sampleHandler "myreg" ("", some (.notFound "priorityClassName"))
    (none, some (.notFound "rancher-webhook")) none none none) "" sampleRepo rfl
    (by decide)).elim fun minVersion hm => hm.elim fun exactVersion he =>
      he.elim fun values hv => ⟨values, hv.2.1 rfl, hv.2.2 rfl, minVersion, exactVersion, hv.1⟩

/-- C13: `onRepo` calls `Ensure` for the webhook chart with `(min, "")` when the
min-version setting is non-empty and with `("", exact)` when it is empty; for an installed
chart definition whose name is not the webhook chart name, the loop passes the min version
and the exact version as the settings give them. -/
theorem onRepo_versions (h : Handler) (key : String) (r : ClusterRepo)
    (hr : r.Name = repoName) :
    (h.RancherWebhookMinVersion ≠ "" → ∃ values image,
        (onRepo h key (some r)).calls.head? =
          some (.ensure namespace_System chart.WebhookChartName h.RancherWebhookMinVersion ""
            values true image)) ∧
      (h.RancherWebhookMinVersion = "" → ∃ values image,
        (onRepo h key (some r)).calls.head? =
          some (.ensure namespace_System chart.WebhookChartName "" h.RancherWebhookVersion
            values true image)) ∧
      (∀ (repo : Option ClusterRepo) (d : chart.Definition) (rest : List chart.Definition),
        d.ChartName ≠ chart.WebhookChartName → d.Enabled ≠ some false → d.Uninstall = false →
        ∃ values image,
          (onRepoCharts h repo (d :: rest)).calls.head? =
            some (.ensure d.ReleaseNamespace d.ChartName d.MinVersionSetting
              d.ExactVersionSetting values false image)) := by
  refine ⟨?_, ?_, ?_⟩
  · intro hm
    refine ⟨Val.overwrite (baseValues h) (webhookChartValues h), installImageOverride h, ?_⟩
    rw [onRepo_head h key r hr, if_pos hm]
  · intro hm
    refine ⟨Val.overwrite (baseValues h) (webhookChartValues h), installImageOverride h, ?_⟩
    rw [onRepo_head h key r hr, hm]
    simp
  · intro repo d rest hn hE hU
    refine ⟨match d.Values with
      | some chartValues => Val.overwrite (baseValues h) chartValues
      | none => baseValues h, installImageOverride h, ?_⟩
    rw [onRepoCharts_head_ensure h repo d rest hE hU]
    simp [ensureCall, hn]

theorem onRepo_versions_witness :
    (∃ values image,
        (onRepo (sampleHandler "" ("", some (.notFound "priorityClassName"))
          (none, some (.notFound "rancher-webhook")) none none none) ""
          (some sampleRepo)).calls.head? =
          some (.ensure namespace_System chart.WebhookChartName "" "2.0.0" values true image)) ∧
      (∃ values image,
        (onRepoCharts (sampleHandler "" ("", some (.notFound "priorityClassName"))
          (none, some (.notFound "rancher-webhook")) none none none) (some sampleRepo)
          [fleetDefinition]).calls.head? =
          some (.ensure "cattle-fleet-system" "fleet" "1.0.0" "1.2.3" values false image)) :=
  ⟨(onRepo_versions (sampleHandler "" ("", some (.notFound "priorityClassName"))
      (none, some (.notFound "rancher-webhook")) none none none) "" sampleRepo rfl).2.1 rfl,
    (onRepo_versions (sampleHandler "" ("", some (.notFound "priorityClassName"))
      (none, some (.notFound "rancher-webhook")) none none none) "" sampleRepo rfl).2.2
      (some sampleRepo) fleetDefinition [] (by decide) (by decide) rfl⟩

/-- No top-level value of a YAML-decoded mapping is a `map[string]interface{}`. -/
theorem yamlDecoded_lookup (m : List (String × Val)) (k : String) (v : Val)
    (hy : yamlDecoded m = true) (hl : Val.lookup m k = some v) : isStringMap v = false := by
  induction m with
  | nil => simp [Val.lookup, List.lookup] at hl
  | cons p ps ih =>
    obtain ⟨a, b⟩ := p
    have hab : isStringMap b = false ∧ yamlDecoded ps = true := by
      simpa [yamlDecoded] using hy
    by_cases hk : k = a
    · subst hk
      have hv : b = v := by simpa [Val.lookup, List.lookup] using hl
      rw [← hv]
      exact hab.1
    · have hb : (k == a) = false := by simpa using hk
      have hps : Val.lookup ps k = some v := by
        simpa [Val.lookup, List.lookup, hb] using hl
      exact ih hab.2 hps

/-- C14, as stated, fails: the static values hold the mapping `mcm.enabled` and the base
values the mapping `global.cattle`; the ConfigMap values, as the YAML parser returns
them, hold mappings under `mcm` and `global` without those keys; in the values handed to
`Ensure` both keys carry the override's mapping alone, so `enabled` and `cattle` of the
lower layers have not survived. -/
theorem onRepo_override_replaces_mappings :
    yamlDecoded nestedOverrideValues = true ∧
      Val.lookup (webhookStaticValues (sampleHandler "" ("", some (.notFound "priorityClassName"))
        (some nestedOverrideValues, none) none none none)) "mcm"
        = some (.map [("enabled", Val.ofBool true)]) ∧
      Val.lookup (baseValues (sampleHandler "" ("", some (.notFound "priorityClassName"))
        (some nestedOverrideValues, none) none none none)) "global"
        = some (.map [("cattle", .map [("systemDefaultRegistry",
            .str "registry.example.com")])]) ∧
      (ensuredValues (onRepo (sampleHandler "" ("", some (.notFound "priorityClassName"))
        (some nestedOverrideValues, none) none none none) ""
        (some sampleRepo)).calls).map
        (fun values => (Val.lookup values "mcm", Val.lookup values "global"))
        = [(some (.anyMap [("extra", .str "x")]), some (.anyMap [("foo", .str "bar")]))] := by
  refine ⟨by decide, ?_, ?_, ?_⟩
  · simp [webhookStaticValues, sampleHandler, Val.lookup, List.lookup]
  · simp [baseValues, sampleHandler, systemGlobalRegistry, Val.lookup, List.lookup]
  · simp [onRepo, sampleRepo, onRepoCharts, getChartsToInstall, sampleHandler, Handler.answer,
      ensureCall, IsNotFound, Outcome.after, ensuredValues, webhookChartValues,
      webhookStaticValues, nestedOverrideValues, MergeMaps, Val.overwrite, baseValues, Val.set,
      Val.lookup, List.lookup, systemGlobalRegistry, chart.PriorityClassKey]

/-- C14, amended: with ConfigMap values as the YAML parser returns them (no top-level value
a `map[string]interface{}`), the values handed to `Ensure` for the webhook chart are three
layers written over one another key by key, without any merge of nested mappings: every
key of the ConfigMap values carries the override's value whole, mapping or not, also where
a lower layer holds a mapping under that key; a key absent from the ConfigMap values has
its static value (`capi`, `mcm`, priority class), else its base value (`global`, and
`image` under a registry override). -/
theorem onRepo_value_layers (h : Handler) (key : String) (r : ClusterRepo)
    (hr : r.Name = repoName)
    (hy : yamlDecoded (h.GetWebhookValues.1.getD []) = true) :
    ∃ minVersion exactVersion values image,
      (onRepo h key (some r)).calls.head? =
        some (.ensure namespace_System chart.WebhookChartName minVersion exactVersion values
          true image) ∧
      (∀ k v, Val.lookup (h.GetWebhookValues.1.getD []) k = some v →
        Val.lookup values k = some v) ∧
      (∀ k, Val.lookup (h.GetWebhookValues.1.getD []) k = none →
        Val.lookup values k =
          match Val.lookup (webhookStaticValues h) k with
          | some v => some v
          | none => Val.lookup (baseValues h) k) := by
  refine ⟨h.RancherWebhookMinVersion,
    if h.RancherWebhookMinVersion ≠ "" then "" else h.RancherWebhookVersion,
    Val.overwrite (baseValues h) (webhookChartValues h), installImageOverride h,
    onRepo_head h key r hr, ?_, ?_⟩
  · intro k v hov
    have hv := yamlDecoded_lookup _ k v hy hov
    rw [Val.lookup_overwrite]
    unfold webhookChartValues
    dsimp only
    rw [MergeMaps_lookup_other _ _ _ _ hov
      (fun _ overlayMap _ hm => by rw [hm] at hv; simp [isStringMap] at hv)]
  · intro k hov
    rw [Val.lookup_overwrite]
    unfold webhookChartValues
    dsimp only
    rw [MergeMaps_lookup_none _ _ _ hov]

theorem onRepo_value_layers_witness :
    ∃ values,
      Val.lookup values "mcm" = some (.anyMap [("enabled", Val.ofBool false)]) ∧
      Val.lookup values "global" = some (.str "") ∧
      Val.lookup values "newKey" = some (.str "newValue") ∧
      Val.lookup values "capi" = some (.map [("enabled", Val.ofBool true)]) ∧
      ∃ minVersion exactVersion image,
        (onRepo (sampleHandler "" ("rancher-critical", none) (some testYAMLValues, none)
          none none none) "" (some sampleRepo)).calls.head? =
          some (.ensure namespace_System chart.WebhookChartName minVersion exactVersion values
            true image) :=
  (onRepo_value_layers (sampleHandler "" ("rancher-critical", none)
    (some testYAMLValues, none) none none none) "" sampleRepo rfl (by decide)).elim
    fun minVersion h1 => h1.elim fun exactVersion h2 => h2.elim fun values h3 =>
      h3.elim fun image h4 =>
        ⟨values,
          h4.2.1 "mcm" _ (by simp [sampleHandler, testYAMLValues, Val.lookup, List.lookup]),
          h4.2.1 "global" _ (by simp [sampleHandler, testYAMLValues, Val.lookup, List.lookup]),
          h4.2.1 "newKey" _ (by simp [sampleHandler, testYAMLValues, Val.lookup, List.lookup]),
          (h4.2.2 "capi"
            (by simp [sampleHandler, testYAMLValues, Val.lookup, List.lookup])).trans
            (by simp [webhookStaticValues, sampleHandler, chart.PriorityClassKey, Val.set,
              Val.lookup, List.lookup]),
          minVersion, exactVersion, image, h4.1⟩

/-- A chart definition whose `Enabled` closure answers false is skipped. -/
theorem onRepoCharts_skip (h : Handler) (repo : Option ClusterRepo) (d : chart.Definition)
    (rest : List chart.Definition) (hE : d.Enabled = some false) :
    onRepoCharts h repo (d :: rest) = onRepoCharts h repo rest := by
  rw [onRepoCharts, if_pos hE]

/-- A failing `Uninstall` ends the pass. -/
theorem onRepoCharts_uninstall_fail (h : Handler) (repo : Option ClusterRepo)
    (d : chart.Definition) (rest : List chart.Definition) (e : Err)
    (hE : d.Enabled ≠ some false) (hU : d.Uninstall = true)
    (hf : h.Uninstall d.ReleaseNamespace d.ChartName = some e) :
    onRepoCharts h repo (d :: rest)
      = ⟨repo, some e, [.uninstall d.ReleaseNamespace d.ChartName]⟩ := by
  rw [onRepoCharts, if_neg hE, if_pos hU]
  simp only [hf]

/-- After a successful `Uninstall` without `RemoveNamespace` the pass goes on. -/
theorem onRepoCharts_uninstall_keep (h : Handler) (repo : Option ClusterRepo)
    (d : chart.Definition) (rest : List chart.Definition)
    (hE : d.Enabled ≠ some false) (hU : d.Uninstall = true)
    (hok : h.Uninstall d.ReleaseNamespace d.ChartName = none)
    (hR : d.RemoveNamespace = false) :
    onRepoCharts h repo (d :: rest)
      = (onRepoCharts h repo rest).after [.uninstall d.ReleaseNamespace d.ChartName] := by
  rw [onRepoCharts, if_neg hE, if_pos hU]
  simp only [hok, hR, Bool.false_eq_true, if_false]

/-- After a successful `Uninstall` with `RemoveNamespace`, a namespace `Delete` failing
with an error other than NotFound ends the pass. -/
theorem onRepoCharts_delete_fail (h : Handler) (repo : Option ClusterRepo)
    (d : chart.Definition) (rest : List chart.Definition) (e : Err)
    (hE : d.Enabled ≠ some false) (hU : d.Uninstall = true)
    (hok : h.Uninstall d.ReleaseNamespace d.ChartName = none)
    (hR : d.RemoveNamespace = true)
    (hf : h.Delete d.ReleaseNamespace = some e) (hn : IsNotFound e = false) :
    onRepoCharts h repo (d :: rest)
      = ⟨repo, some e, [.uninstall d.ReleaseNamespace d.ChartName,
          .delete d.ReleaseNamespace]⟩ := by
  rw [onRepoCharts, if_neg hE, if_pos hU]
  simp only [hok, hR, hf, hn, if_true]

/-- After a successful `Uninstall` with `RemoveNamespace`, a namespace `Delete` that
succeeds or fails with NotFound lets the pass go on. -/
theorem onRepoCharts_delete_ok (h : Handler) (repo : Option ClusterRepo)
    (d : chart.Definition) (rest : List chart.Definition)
    (hE : d.Enabled ≠ some false) (hU : d.Uninstall = true)
    (hok : h.Uninstall d.ReleaseNamespace d.ChartName = none)
    (hR : d.RemoveNamespace = true)
    (hd : h.Delete d.ReleaseNamespace = none ∨
      ∃ e, h.Delete d.ReleaseNamespace = some e ∧ IsNotFound e = true) :
    onRepoCharts h repo (d :: rest)
      = (onRepoCharts h repo rest).after [.uninstall d.ReleaseNamespace d.ChartName,
          .delete d.ReleaseNamespace] := by
  rw [onRepoCharts, if_neg hE, if_pos hU]
  rcases hd with hd | ⟨e, hd, hn⟩
  · simp only [hok, hR, hd, if_true]
  · simp only [hok, hR, hd, hn, if_true, Bool.true_eq_false, if_false]

/-- A failing `Ensure` ends the pass. -/
theorem onRepoCharts_ensure_fail (h : Handler) (repo : Option ClusterRepo)
    (d : chart.Definition) (rest : List chart.Definition) (e : Err)
    (hE : d.Enabled ≠ some false) (hU : d.Uninstall = false)
    (hf : h.answer (ensureCall h d) = some e) :
    onRepoCharts h repo (d :: rest) = ⟨repo, some e, [ensureCall h d]⟩ := by
  rw [onRepoCharts, if_neg hE]
  simp only [hU, Bool.false_eq_true, if_false, hf]

/-- After a successful `Ensure` the pass goes on. -/
theorem onRepoCharts_ensure_ok (h : Handler) (repo : Option ClusterRepo)
    (d : chart.Definition) (rest : List chart.Definition)
    (hE : d.Enabled ≠ some false) (hU : d.Uninstall = false)
    (hok : h.answer (ensureCall h d) = none) :
    onRepoCharts h repo (d :: rest) = (onRepoCharts h repo rest).after [ensureCall h d] := by
  rw [onRepoCharts, if_neg hE]
  simp only [hU, Bool.false_eq_true, if_false, hok]

/-- What one chart definition contributes does not depend on the definitions after it:
either its calls are put in front of the rest of the pass, or the pass ends with an error. -/
theorem onRepoCharts_step (h : Handler) (repo : Option ClusterRepo) (d : chart.Definition) :
    (∃ cs, ∀ rest, onRepoCharts h repo (d :: rest) = (onRepoCharts h repo rest).after cs) ∨
      (∃ e cs, ∀ rest, onRepoCharts h repo (d :: rest) = ⟨repo, some e, cs⟩) := by
  by_cases hE : d.Enabled = some false
  · exact Or.inl ⟨[], fun rest => by rw [onRepoCharts_skip h repo d rest hE]; rfl⟩
  · cases hU : d.Uninstall with
    | false =>
      cases hA : h.answer (ensureCall h d) with
      | none => exact Or.inl ⟨_, fun rest => onRepoCharts_ensure_ok h repo d rest hE hU hA⟩
      | some e =>
        exact Or.inr ⟨e, _, fun rest => onRepoCharts_ensure_fail h repo d rest e hE hU hA⟩
    | true =>
      cases hA : h.Uninstall d.ReleaseNamespace d.ChartName with
      | some e =>
        exact Or.inr ⟨e, _, fun rest => onRepoCharts_uninstall_fail h repo d rest e hE hU hA⟩
      | none =>
        cases hR : d.RemoveNamespace with
        | false =>
          exact Or.inl ⟨_, fun rest => onRepoCharts_uninstall_keep h repo d rest hE hU hA hR⟩
        | true =>
          cases hD : h.Delete d.ReleaseNamespace with
          | none =>
            exact Or.inl ⟨_, fun rest =>
              onRepoCharts_delete_ok h repo d rest hE hU hA hR (Or.inl hD)⟩
          | some e =>
            cases hN : IsNotFound e with
            | true =>
              exact Or.inl ⟨_, fun rest =>
                onRepoCharts_delete_ok h repo d rest hE hU hA hR (Or.inr ⟨e, hD, hN⟩)⟩
            | false =>
              exact Or.inr ⟨e, _, fun rest =>
                onRepoCharts_delete_fail h repo d rest e hE hU hA hR hD hN⟩

/-- A pass over `pre ++ post` whose part over `pre` ends without error is the pass over
`post` with the calls for `pre` in front. -/
theorem onRepoCharts_append (h : Handler) (repo : Option ClusterRepo)
    (pre post : List chart.Definition) (hpre : (onRepoCharts h repo pre).err = none) :
    onRepoCharts h repo (pre ++ post)
      = (onRepoCharts h repo post).after (onRepoCharts h repo pre).calls := by
  induction pre with
  | nil => rfl
  | cons d rest ih =>
    rcases onRepoCharts_step h repo d with ⟨cs, hs⟩ | ⟨e, cs, hs⟩
    · rw [hs rest] at hpre
      rw [List.cons_append, hs (rest ++ post), hs rest, ih hpre]
      simp [Outcome.after]
    · rw [hs rest] at hpre
      simp at hpre

/-- C15: charts are processed in list order and one failure stops the pass.  When the
pass over the definitions before position `i` ends without error and the `Uninstall` or
the `Ensure` call of the enabled definition at position `i` returns the error `e`, the
loop of `onRepo` returns exactly `e`, and its call log is the log of the definitions
before `i` followed by that one failing call, whatever definitions come after `i`: none
of them gets an Ensure, Uninstall or namespace Delete.  In the built-in list a failing
`Ensure` of the webhook chart leaves `onRepo` with that single call. -/
theorem onRepoCharts_stops_at_failure (h : Handler) (repo : Option ClusterRepo)
    (pre post : List chart.Definition) (d : chart.Definition) (e : Err)
    (hpre : (onRepoCharts h repo pre).err = none)
    (hE : d.Enabled ≠ some false)
    (hf : (d.Uninstall = true ∧ h.Uninstall d.ReleaseNamespace d.ChartName = some e) ∨
      (d.Uninstall = false ∧ h.answer (ensureCall h d) = some e)) :
    (onRepoCharts h repo (pre ++ d :: post)).err = some e ∧
      (onRepoCharts h repo (pre ++ d :: post)).ret = repo ∧
      (onRepoCharts h repo (pre ++ d :: post)).calls
        = (onRepoCharts h repo pre).calls ++
          [if d.Uninstall = true then .uninstall d.ReleaseNamespace d.ChartName
            else ensureCall h d] ∧
      (∀ (key : String) (r : ClusterRepo), r.Name = repoName → pre = [] →
        d :: post = getChartsToInstall h →
        (onRepo h key (some r)).err = some e ∧
          (onRepo h key (some r)).calls.length = 1 ∧
          (onRepo h key (some r)).calls.countP Call.isUninstall = 0 ∧
          (onRepo h key (some r)).calls.countP Call.isDelete = 0) := by
  have hstep : onRepoCharts h repo (d :: post) = ⟨repo, some e,
      [if d.Uninstall = true then .uninstall d.ReleaseNamespace d.ChartName
        else ensureCall h d]⟩ := by
    rcases hf with ⟨hU, hf⟩ | ⟨hU, hf⟩
    · rw [onRepoCharts_uninstall_fail h repo d post e hE hU hf, if_pos hU]
    · rw [onRepoCharts_ensure_fail h repo d post e hE hU hf]
      simp [hU]
  refine ⟨?_, ?_, ?_, ?_⟩
  · rw [onRepoCharts_append h repo pre _ hpre, hstep]
    rfl
  · rw [onRepoCharts_append h repo pre _ hpre, hstep]
    rfl
  · rw [onRepoCharts_append h repo pre _ hpre, hstep]
    rfl
  · intro key r hr _ hlist
    have hU : d.Uninstall = false := by
      have hd : (getChartsToInstall h).head? = some d := by rw [← hlist]; rfl
      simp only [getChartsToInstall, List.head?_cons, Option.some.injEq] at hd
      rw [← hd]
    have hs : onRepo h key (some r) = ⟨some r, some e, [ensureCall h d]⟩ := by
      rcases hf with ⟨hU', _⟩ | ⟨_, hf⟩
      · rw [hU] at hU'
        exact absurd hU' (by decide)
      · rw [onRepo_matching h key r hr, ← hlist,
          onRepoCharts_ensure_fail h (some r) d post e hE hU hf]
    rw [hs]
    refine ⟨rfl, rfl, ?_, ?_⟩
    · simp [ensureCall, Call.isUninstall]
    · simp [ensureCall, Call.isDelete]

theorem onRepoCharts_stops_at_failure_witness :
    (onRepoCharts (sampleHandler "" ("", some (.notFound "priorityClassName"))
        (none, some (.notFound "rancher-webhook")) (some (.other "test error")) none none)
        (some sampleRepo) ([] ++ fleetDefinition :: getChartsToInstall (sampleHandler ""
          ("", some (.notFound "priorityClassName")) (none, some (.notFound "rancher-webhook"))
          (some (.other "test error")) none none))).err = some (.other "test error") ∧
      (onRepoCharts (sampleHandler "" ("", some (.notFound "priorityClassName"))
        (none, some (.notFound "rancher-webhook")) (some (.other "test error")) none none)
        (some sampleRepo) ([] ++ fleetDefinition :: getChartsToInstall (sampleHandler ""
          ("", some (.notFound "priorityClassName")) (none, some (.notFound "rancher-webhook"))
          (some (.other "test error")) none none))).calls.length = 1 :=
  have hw := onRepoCharts_stops_at_failure
    (sampleHandler "" ("", some (.notFound "priorityClassName"))
      (none, some (.notFound "rancher-webhook")) (some (.other "test error")) none none)
    (some sampleRepo) [] (getChartsToInstall (sampleHandler ""
      ("", some (.notFound "priorityClassName")) (none, some (.notFound "rancher-webhook"))
      (some (.other "test error")) none none)) fleetDefinition (.other "test error")
    rfl (by decide) (Or.inr ⟨rfl, rfl⟩)
  ⟨hw.1, by rw [hw.2.2.1]; rfl⟩

/-- C16: for an enabled chart definition with `Uninstall` set whose `Uninstall` call
succeeded: with `RemoveNamespace` set the release namespace is deleted once, a Delete
that succeeds or fails with NotFound lets the pass go on with the next chart, and any
other Delete error is returned and ends the pass; without `RemoveNamespace` no namespace
Delete is issued and the pass goes on. -/
theorem onRepoCharts_remove_namespace (h : Handler) (repo : Option ClusterRepo)
    (d : chart.Definition) (rest : List chart.Definition)
    (hE : d.Enabled ≠ some false) (hU : d.Uninstall = true)
    (hok : h.Uninstall d.ReleaseNamespace d.ChartName = none) :
    (d.RemoveNamespace = true →
        ((h.Delete d.ReleaseNamespace = none ∨
            ∃ e, h.Delete d.ReleaseNamespace = some e ∧ IsNotFound e = true) →
          onRepoCharts h repo (d :: rest)
            = (onRepoCharts h repo rest).after [.uninstall d.ReleaseNamespace d.ChartName,
                .delete d.ReleaseNamespace]) ∧
        (∀ e, h.Delete d.ReleaseNamespace = some e → IsNotFound e = false →
          onRepoCharts h repo (d :: rest)
            = ⟨repo, some e, [.uninstall d.ReleaseNamespace d.ChartName,
                .delete d.ReleaseNamespace]⟩)) ∧
      (d.RemoveNamespace = false →
        onRepoCharts h repo (d :: rest)
          = (onRepoCharts h repo rest).after [.uninstall d.ReleaseNamespace d.ChartName]) :=
  ⟨fun hR => ⟨fun hd => onRepoCharts_delete_ok h repo d rest hE hU hok hR hd,
      fun e hf hn => onRepoCharts_delete_fail h repo d rest e hE hU hok hR hf hn⟩,
    fun hR => onRepoCharts_uninstall_keep h repo d rest hE hU hok hR⟩

theorem onRepoCharts_remove_namespace_witness :
    onRepoCharts (sampleHandler "" ("", some (.notFound "priorityClassName"))
        (none, some (.notFound "rancher-webhook")) none none
        (some (.notFound "rancher-operator-system"))) (some sampleRepo) [operatorDefinition]
      = (onRepoCharts (sampleHandler "" ("", some (.notFound "priorityClassName"))
          (none, some (.notFound "rancher-webhook")) none none
          (some (.notFound "rancher-operator-system"))) (some sampleRepo) []).after
          [.uninstall "rancher-operator-system" "rancher-operator",
            .delete "rancher-operator-system"] :=
  ((onRepoCharts_remove_namespace (sampleHandler "" ("", some (.notFound "priorityClassName"))
    (none, some (.notFound "rancher-webhook")) none none
    (some (.notFound "rancher-operator-system"))) (some sampleRepo) operatorDefinition []
    (by decide) rfl rfl).1 rfl).1 (Or.inr ⟨.notFound "rancher-operator-system", rfl, rfl⟩)

/-- The base values hold `global` with the registry mapping built at the start of `onRepo`. -/
theorem baseValues_lookup_global (h : Handler) :
    Val.lookup (baseValues h) "global" = some (.map (systemGlobalRegistry h)) := by
  unfold baseValues
  dsimp only
  split_ifs
  · rw [Val.lookup_set_ne _ _ _ _ (by decide)]
    rfl
  · rfl

/-- The base values hold no key other than `global` and `image`, and `image` only under a
registry override. -/
theorem baseValues_lookup_other (h : Handler) (k : String) (h1 : k ≠ "global")
    (h2 : k ≠ "image" ∨ h.registryOverride = "") : Val.lookup (baseValues h) k = none := by
  have b1 : (k == "global") = false := by simpa using h1
  unfold baseValues
  dsimp only
  by_cases ho : h.registryOverride = ""
  · simp [ho, Val.lookup, List.lookup, b1]
  · rcases h2 with h2 | h2
    · rw [if_pos ho, Val.lookup_set_ne _ _ _ _ h2]
      simp [Val.lookup, List.lookup, b1]
    · exact absurd h2 ho

/-- The static values of the webhook chart hold the two feature flags. -/
theorem webhookStaticValues_lookup_flags (h : Handler) :
    Val.lookup (webhookStaticValues h) "capi"
        = some (.map [("enabled", Val.ofBool h.EmbeddedClusterAPI)]) ∧
      Val.lookup (webhookStaticValues h) "mcm"
        = some (.map [("enabled", Val.ofBool h.MCM)]) := by
  unfold webhookStaticValues
  dsimp only
  split
  · exact ⟨rfl, rfl⟩
  · rw [Val.lookup_set_ne _ _ _ _ (by decide), Val.lookup_set_ne _ _ _ _ (by decide)]
    exact ⟨rfl, rfl⟩

/-- The static values of the webhook chart hold the priority class name exactly when
`GetPriorityClassName` returned no error. -/
theorem webhookStaticValues_lookup_priority (h : Handler) :
    Val.lookup (webhookStaticValues h) chart.PriorityClassKey =
      match h.GetPriorityClassName.2 with
      | some _ => none
      | none => some (.str h.GetPriorityClassName.1) := by
  unfold webhookStaticValues
  dsimp only
  split
  · rename_i heq
    rw [heq]
    rfl
  · rename_i heq
    rw [heq, Val.lookup_set_self]

/-- C17, as stated, fails: `GetPriorityClassName` returns an error while `GetWebhookValues`
succeeds with the mapping `newKey: newValue`; the values handed to `Ensure` then hold
`newKey`, which is none of the defaults. -/
theorem onRepo_priority_failure_keeps_overrides :
    (sampleHandler "" ("", some (.notFound "priorityClassName"))
        (some [("newKey", .str "newValue")], none) none none none).GetPriorityClassName.2
        = some (.notFound "priorityClassName") ∧
      (ensuredValues (onRepo (sampleHandler "" ("", some (.notFound "priorityClassName"))
        (some [("newKey", .str "newValue")], none) none none none) ""
        (some sampleRepo)).calls).map (fun values => Val.lookup values "newKey")
        = [some (.str "newValue")] := by
  refine ⟨rfl, ?_⟩
  simp [onRepo, sampleRepo, onRepoCharts, getChartsToInstall, sampleHandler, Handler.answer,
    ensureCall, IsNotFound, Outcome.after, ensuredValues, webhookChartValues,
    webhookStaticValues, MergeMaps, Val.overwrite, baseValues, Val.set, Val.lookup,
    List.lookup, systemGlobalRegistry, chart.PriorityClassKey]

/-- The error `onRepo` returns on the repo `rancher-charts`: the answer of `Ensure` for the
webhook chart, else of `Uninstall` for `rancher-operator`, else of the namespace `Delete`
unless that one is NotFound. -/
theorem onRepo_err (h : Handler) (key : String) (r : ClusterRepo) (hr : r.Name = repoName) :
    (onRepo h key (some r)).err =
      (match h.Ensure namespace_System chart.WebhookChartName h.RancherWebhookMinVersion
          (if h.RancherWebhookMinVersion ≠ "" then "" else h.RancherWebhookVersion)
          (Val.overwrite (baseValues h) (webhookChartValues h)) true
          (installImageOverride h) with
        | some e => some e
        | none =>
          match h.Uninstall "rancher-operator-system" "rancher-operator" with
          | some e => some e
          | none =>
            match h.Delete "rancher-operator-system" with
            | some e => if IsNotFound e = false then some e else none
            | none => none) := by
  rw [onRepo_matching h key r hr]
  unfold getChartsToInstall
  generalize hwd : ({ ReleaseNamespace := namespace_System
                      ChartName := chart.WebhookChartName
                      MinVersionSetting := h.RancherWebhookMinVersion
                      ExactVersionSetting := h.RancherWebhookVersion
                      Values := some (webhookChartValues h)
                      Enabled := some true
                      Uninstall := false
                      RemoveNamespace := false } : chart.Definition) = wd
  have hcall : ensureCall h wd = .ensure namespace_System chart.WebhookChartName
      h.RancherWebhookMinVersion
      (if h.RancherWebhookMinVersion ≠ "" then "" else h.RancherWebhookVersion)
      (Val.overwrite (baseValues h) (webhookChartValues h)) true (installImageOverride h) := by
    rw [← hwd]
    simp [ensureCall]
  have hE : wd.Enabled ≠ some false := by rw [← hwd]; simp
  have hU : wd.Uninstall = false := by rw [← hwd]
  have hans : h.answer (ensureCall h wd) = h.Ensure namespace_System chart.WebhookChartName
      h.RancherWebhookMinVersion
      (if h.RancherWebhookMinVersion ≠ "" then "" else h.RancherWebhookVersion)
      (Val.overwrite (baseValues h) (webhookChartValues h)) true (installImageOverride h) := by
    rw [hcall]
    rfl
  rw [← hans]
  have hEo : operatorDefinition.Enabled ≠ some false := by decide
  cases hA : h.answer (ensureCall h wd) with
  | some e => rw [onRepoCharts_ensure_fail h (some r) wd _ e hE hU hA]
  | none =>
    rw [onRepoCharts_ensure_ok h (some r) wd _ hE hU hA]
    show (onRepoCharts h (some r) [operatorDefinition]).err = _
    cases hB : h.Uninstall "rancher-operator-system" "rancher-operator" with
    | some e => rw [onRepoCharts_uninstall_fail h (some r) operatorDefinition [] e hEo rfl hB]
    | none =>
      cases hC : h.Delete "rancher-operator-system" with
      | none =>
        rw [onRepoCharts_delete_ok h (some r) operatorDefinition [] hEo rfl hB rfl
          (Or.inl hC)]
        rfl
      | some e =>
        cases hN : IsNotFound e with
        | true =>
          rw [onRepoCharts_delete_ok h (some r) operatorDefinition [] hEo rfl hB rfl
            (Or.inr ⟨e, hC, hN⟩)]
          simp [Outcome.after, onRepoCharts, hN]
        | false =>
          rw [onRepoCharts_delete_fail h (some r) operatorDefinition [] e hEo rfl hB rfl hC hN]
          simp [hN]

/-- C17, amended: whatever `GetPriorityClassName` and `GetWebhookValues` return, errors of
any kind included, the first call of `onRepo` is `Ensure` for the webhook chart, and the
error `onRepo` returns is the answer of `Ensure`, else of `Uninstall`, else of the
namespace `Delete` unless that one is NotFound.  When `GetWebhookValues` failed and
returned no mapping, the values are the defaults: the two feature flags under `capi` and
`mcm`, the base `global` registry mapping, the priority class key exactly when
`GetPriorityClassName` succeeded, `image` only under a registry override, and no other
key.  When `GetPriorityClassName` failed, the static values have no priority class key. -/
theorem onRepo_config_read_failures (h : Handler) (key : String) (r : ClusterRepo)
    (hr : r.Name = repoName) :
    ∃ minVersion exactVersion values image,
      (onRepo h key (some r)).calls.head? =
        some (.ensure namespace_System chart.WebhookChartName minVersion exactVersion values
          true image) ∧
      (onRepo h key (some r)).err =
        (match h.Ensure namespace_System chart.WebhookChartName minVersion exactVersion values
            true image with
          | some e => some e
          | none =>
            match h.Uninstall "rancher-operator-system" "rancher-operator" with
            | some e => some e
            | none =>
              match h.Delete "rancher-operator-system" with
              | some e => if IsNotFound e = false then some e else none
              | none => none) ∧
      (∀ e, h.GetWebhookValues = (none, some e) →
        Val.lookup values "capi"
            = some (.map [("enabled", Val.ofBool h.EmbeddedClusterAPI)]) ∧
          Val.lookup values "mcm" = some (.map [("enabled", Val.ofBool h.MCM)]) ∧
          Val.lookup values "global" = some (.map (systemGlobalRegistry h)) ∧
          Val.lookup values chart.PriorityClassKey =
            (match h.GetPriorityClassName.2 with
              | some _ => none
              | none => some (.str h.GetPriorityClassName.1)) ∧
          (h.registryOverride = "" → Val.lookup values "image" = none) ∧
          (∀ k, k ≠ "capi" → k ≠ "mcm" → k ≠ "global" → k ≠ "image" →
            k ≠ chart.PriorityClassKey → Val.lookup values k = none)) ∧
      (∀ e, h.GetPriorityClassName.2 = some e →
        Val.lookup (webhookStaticValues h) chart.PriorityClassKey = none) := by
  refine ⟨h.RancherWebhookMinVersion,
    if h.RancherWebhookMinVersion ≠ "" then "" else h.RancherWebhookVersion,
    Val.overwrite (baseValues h) (webhookChartValues h), installImageOverride h,
    onRepo_head h key r hr, ?_, ?_, ?_⟩
  · exact onRepo_err h key r hr
  · intro e he
    have hw : webhookChartValues h = webhookStaticValues h := by
      simp [webhookChartValues, he, MergeMaps]
    have hflags := webhookStaticValues_lookup_flags h
    rw [hw]
    refine ⟨?_, ?_, ?_, ?_, ?_, ?_⟩
    · rw [Val.lookup_overwrite, hflags.1]
    · rw [Val.lookup_overwrite, hflags.2]
    · rw [Val.lookup_overwrite,
        webhookStaticValues_lookup_other h "global" (by decide) (by decide) (by decide)]
      exact baseValues_lookup_global h
    · rw [Val.lookup_overwrite, webhookStaticValues_lookup_priority]
      cases h.GetPriorityClassName.2 with
      | some _ =>
        exact baseValues_lookup_other h _ (by decide) (Or.inl (by decide))
      | none => rfl
    · intro ho
      rw [Val.lookup_overwrite,
        webhookStaticValues_lookup_other h "image" (by decide) (by decide) (by decide)]
      exact baseValues_lookup_other h _ (by decide) (Or.inr ho)
    · intro k k1 k2 k3 k4 k5
      rw [Val.lookup_overwrite, webhookStaticValues_lookup_other h k k1 k2 k5]
      exact baseValues_lookup_other h k k3 (Or.inl k4)
  · intro e he
    rw [webhookStaticValues_lookup_priority, he]

theorem onRepo_config_read_failures_witness :
    ∃ values,
      Val.lookup values "capi" = some (.map [("enabled", Val.ofBool true)]) ∧
      Val.lookup values chart.PriorityClassKey = none ∧
      Val.lookup values "image" = none ∧
      ∃ minVersion exactVersion image,
        (onRepo (sampleHandler "" ("", some (.other "test error"))
          (none, some (.other "test error")) none none none) ""
          (some sampleRepo)).calls.head? =
          some (.ensure namespace_System chart.WebhookChartName minVersion exactVersion values
            true image) :=
  (onRepo_config_read_failures (sampleHandler "" ("", some (.other "test error"))
    (none, some (.other "test error")) none none none) "" sampleRepo rfl).elim
    fun minVersion h1 => h1.elim fun exactVersion h2 => h2.elim fun values h3 =>
      h3.elim fun image h4 =>
        ⟨values, (h4.2.2.1 (.other "test error") rfl).1,
          (h4.2.2.1 (.other "test error") rfl).2.2.2.1,
          (h4.2.2.1 (.other "test error") rfl).2.2.2.2.1 rfl,
          minVersion, exactVersion, image, h4.1⟩

end Dashboard

/-! ## Theorems: the cluster-version gate -/

namespace PodSecurityPolicy

theorem isDigit_ne_plus (c : Char) (h : c.isDigit = true) : (c != '+') = true := by
  have hc : c ≠ '+' := by
    intro hp
    subst hp
    exact absurd h (by decide)
  simpa using hc

theorem isDigit_ne_dot (c : Char) (h : c.isDigit = true) : c ≠ '.' := by
  intro hp
  subst hp
  exact absurd h (by decide)

/-- Dropping the build suffix keeps the digits in front of a `+`, and all of them when
nothing follows. -/
theorem dropBuildSuffix_digits (head digits rest : List Char)
    (hh : ∀ c ∈ head, (c != '+') = true)
    (hd : ∀ c ∈ digits, c.isDigit = true)
    (hr : rest = [] ∨ rest.head? = some '+') :
    dropBuildSuffix (head ++ digits ++ rest) = head ++ digits := by
  unfold dropBuildSuffix
  have hall : ∀ c ∈ head ++ digits, (c != '+') = true := by
    intro c hc
    rcases List.mem_append.mp hc with hc | hc
    · exact hh c hc
    · exact isDigit_ne_plus c (hd c hc)
  rw [List.takeWhile_append_of_pos hall]
  rcases hr with hr | hr
  · subst hr
    simp
  · cases rest with
    | nil => simp
    | cons x xs =>
      have hx : x = '+' := by simpa using hr
      subst hx
      simp [List.takeWhile]

/-- A run of digits is one component. -/
theorem splitDots_digits (digits : List Char) (hd : ∀ c ∈ digits, c.isDigit = true) :
    splitDots digits = [digits] := by
  induction digits with
  | nil => rfl
  | cons c cs ih =>
    have hc : c ≠ '.' := isDigit_ne_dot c (hd c (List.mem_cons_self c cs))
    have hcs := ih (fun x hx => hd x (List.mem_cons_of_mem c hx))
    simp [splitDots, hc, hcs]

/-- The number of components is the number of dots plus one. -/
theorem splitDots_length (l : List Char) : (splitDots l).length = l.count '.' + 1 := by
  induction l with
  | nil => rfl
  | cons c cs ih =>
    by_cases hc : c = '.'
    · subst hc
      simp [splitDots, ih]
    · have hne : (c == '.') = false := by simpa using hc
      rw [splitDots, if_neg hc, List.count_cons]
      simp only [hne, Bool.false_eq_true, if_false, Nat.add_zero]
      rw [← ih]
      cases hs : splitDots cs with
      | nil => simp [hs] at ih
      | cons seg segs => rfl

/-- Every character of a component is a character of the string. -/
theorem splitDots_mem (l : List Char) :
    ∀ seg ∈ splitDots l, ∀ c ∈ seg, c ∈ l := by
  induction l with
  | nil =>
    intro seg hseg c hc
    simp [splitDots] at hseg
    subst hseg
    exact hc
  | cons x xs ih =>
    intro seg hseg c hc
    by_cases hx : x = '.'
    · rw [splitDots, if_pos hx] at hseg
      rcases List.mem_cons.mp hseg with h | h
      · subst h
        exact absurd hc (List.not_mem_nil c)
      · exact List.mem_cons_of_mem x (ih seg h c hc)
    · rw [splitDots, if_neg hx] at hseg
      cases hs : splitDots xs with
      | nil =>
        rw [hs] at hseg
        simp at hseg
        subst hseg
        have hcx : c = x := by simpa using hc
        subst hcx
        exact List.mem_cons_self c xs
      | cons s ss =>
        rw [hs] at hseg
        rcases List.mem_cons.mp hseg with h | h
        · subst h
          rcases List.mem_cons.mp hc with h1 | h1
          · subst h1
            exact List.mem_cons_self c xs
          · exact List.mem_cons_of_mem x (ih s (by rw [hs]; exact List.mem_cons_self s ss) c h1)
        · exact List.mem_cons_of_mem x
            (ih seg (by rw [hs]; exact List.mem_cons_of_mem s h) c hc)

/-- A non-empty run of digits parses as a number. -/
theorem parseNumber_digits (digits : List Char) (hn : digits ≠ [])
    (hd : ∀ c ∈ digits, c.isDigit = true) : ∃ n, parseNumber digits = some n := by
  refine ⟨digits.foldl (fun n c => 10 * n + (c.toNat - 48)) 0, ?_⟩
  unfold parseNumber
  rw [if_pos ⟨hn, List.all_eq_true.mpr hd⟩]

/-- A component without a digit is no number. -/
theorem parseNumber_no_digit (seg : List Char) (hd : ∀ c ∈ seg, c.isDigit = false) :
    parseNumber seg = none := by
  unfold parseNumber
  split_ifs with h
  · obtain ⟨hn, hall⟩ := h
    cases seg with
    | nil => exact absurd rfl hn
    | cons c cs =>
      have h1 := hd c (List.mem_cons_self c cs)
      have h2 := List.all_eq_true.mp hall c (List.mem_cons_self c cs)
      rw [h1] at h2
      exact absurd h2 (by decide)
  · rfl

/-- A version string with fewer than two dots, or without any digit, does not parse. -/
theorem parseVersion_malformed (version : String)
    (h : version.toList.count '.' < 2 ∨ ∀ c ∈ version.toList, c.isDigit = false) :
    parseVersion version = none := by
  unfold parseVersion
  split
  · rename_i body hv
    split
    · rename_i major minor patch hs
      rcases h with h | h
      · have hlen := splitDots_length (dropBuildSuffix body)
        rw [hs] at hlen
        have h1 : (dropBuildSuffix body).count '.' ≤ body.count '.' :=
          (List.takeWhile_sublist _).count_le '.'
        have h2 : body.count '.' ≤ version.toList.count '.' := by
          rw [hv]
          exact List.count_le_count_cons '.' 'v' body
        simp only [List.length_cons, List.length_nil] at hlen
        omega
      · have hmajor : parseNumber major = none := by
          apply parseNumber_no_digit
          intro c hc
          apply h c
          rw [hv]
          apply List.mem_cons_of_mem
          apply (List.takeWhile_sublist _).subset
          exact splitDots_mem (dropBuildSuffix body) major
            (by rw [hs]; exact List.mem_cons_self _ _) c hc
        rw [hmajor]
    · rfl
  · rfl

/-- A version string `v1.2d.PATCH[+suffix]` with a digit `d` parses with major 1 and
minor `20 + d`. -/
theorem parseVersion_v1_2x (d : Char) (patch buildSuffix : List Char)
    (hdig : d.isDigit = true) (hn : patch ≠ []) (hp : ∀ c ∈ patch, c.isDigit = true)
    (hs : buildSuffix = [] ∨ buildSuffix.head? = some '+') :
    ∃ n, parseVersion (String.mk ('v' :: '1' :: '.' :: '2' :: d :: '.' ::
      (patch ++ buildSuffix))) = some (1, 20 + (d.toNat - 48), n) := by
  obtain ⟨n, hnum⟩ := parseNumber_digits patch hn hp
  refine ⟨n, ?_⟩
  have hdrop : dropBuildSuffix ('1' :: '.' :: '2' :: d :: '.' :: (patch ++ buildSuffix))
      = '1' :: '.' :: '2' :: d :: '.' :: patch := by
    have := dropBuildSuffix_digits ['1', '.', '2', d, '.'] patch buildSuffix
      (by
        intro c hc
        simp only [List.mem_cons, List.mem_singleton, List.not_mem_nil, or_false] at hc
        rcases hc with h | h | h | h | h
        · subst h; decide
        · subst h; decide
        · subst h; decide
        · subst h; exact isDigit_ne_plus c hdig
        · subst h; decide) hp hs
    simpa using this
  have hd : d ≠ '.' := isDigit_ne_dot d hdig
  have hsplit : splitDots ('1' :: '.' :: '2' :: d :: '.' :: patch)
      = [['1'], ['2', d], patch] := by
    simp [splitDots, splitDots_digits patch hp, hd]
  have h1 : parseNumber ['1'] = some 1 := by decide
  have h2 : parseNumber ['2', d] = some (20 + (d.toNat - 48)) := by
    unfold parseNumber
    rw [if_pos ⟨by simp, by simp [hdig]⟩]
    simp [List.foldl]
  show (match (String.mk ('v' :: '1' :: '.' :: '2' :: d :: '.' ::
    (patch ++ buildSuffix))).toList with
    | 'v' :: body =>
      match splitDots (dropBuildSuffix body) with
      | [major, minor, patch] =>
        match parseNumber major, parseNumber minor, parseNumber patch with
        | some a, some b, some c => some (a, b, c)
        | _, _, _ => none
      | _ => none
    | _ => none) = _
  simp only [String.toList, hdrop, hsplit, h1, h2, hnum]

/-- A string made of at least one character is not the empty string. -/
theorem mk_cons_ne_empty (c : Char) (cs : List Char) : String.mk (c :: cs) ≠ "" := by
  intro h
  have hl := congrArg String.length h
  simp [String.length] at hl

/-- C18: for a cluster whose version string is `v1.MINOR.PATCH` with an optional `+suffix`,
`checkClusterVersion` returns no error for MINOR 24 and an error for MINOR 25 and 26,
whatever the digits of PATCH and whatever the suffix; for a version string that is empty,
has fewer than two dots (fewer than three components), or holds no digit at all, it
returns an error.  The lower end of the allowed range is any `minMinor` up to 24. -/
theorem checkClusterVersion_minor_gate (minMinor : Nat) (hmin : minMinor ≤ 24)
    (clusterID : String) (lister : String → Option Cluster × Option Err) (version : String)
    (hl : lister clusterID = (some { GitVersion := version }, none)) :
    (∀ patch buildSuffix : List Char, patch ≠ [] → (∀ c ∈ patch, c.isDigit = true) →
        (buildSuffix = [] ∨ buildSuffix.head? = some '+') →
        (version = String.mk ('v' :: '1' :: '.' :: '2' :: '4' :: '.' :: (patch ++ buildSuffix)) →
          checkClusterVersion minMinor clusterID lister = none) ∧
        (version = String.mk ('v' :: '1' :: '.' :: '2' :: '5' :: '.' :: (patch ++ buildSuffix)) →
          checkClusterVersion minMinor clusterID lister ≠ none) ∧
        (version = String.mk ('v' :: '1' :: '.' :: '2' :: '6' :: '.' :: (patch ++ buildSuffix)) →
          checkClusterVersion minMinor clusterID lister ≠ none)) ∧
      ((version = "" ∨ version.toList.count '.' < 2 ∨
          ∀ c ∈ version.toList, c.isDigit = false) →
        checkClusterVersion minMinor clusterID lister ≠ none) := by
  refine ⟨?_, ?_⟩
  · intro patch buildSuffix hn hp hs
    refine ⟨?_, ?_, ?_⟩
    · intro hv
      obtain ⟨n, hparse⟩ := parseVersion_v1_2x '4' patch buildSuffix (by decide) hn hp hs
      rw [← hv] at hparse
      have hne : version ≠ "" := by rw [hv]; exact mk_cons_ne_empty _ _
      have h24 : 20 + ('4'.toNat - 48) = 24 := by decide
      rw [h24] at hparse
      simp [checkClusterVersion, hl, hne, hparse, maxMinor, hmin]
    · intro hv
      obtain ⟨n, hparse⟩ := parseVersion_v1_2x '5' patch buildSuffix (by decide) hn hp hs
      rw [← hv] at hparse
      have hne : version ≠ "" := by rw [hv]; exact mk_cons_ne_empty _ _
      have h25 : 20 + ('5'.toNat - 48) = 25 := by decide
      rw [h25] at hparse
      simp [checkClusterVersion, hl, hne, hparse, maxMinor]
    · intro hv
      obtain ⟨n, hparse⟩ := parseVersion_v1_2x '6' patch buildSuffix (by decide) hn hp hs
      rw [← hv] at hparse
      have hne : version ≠ "" := by rw [hv]; exact mk_cons_ne_empty _ _
      have h26 : 20 + ('6'.toNat - 48) = 26 := by decide
      rw [h26] at hparse
      simp [checkClusterVersion, hl, hne, hparse, maxMinor]
  · intro hm
    by_cases he : version = ""
    · simp [checkClusterVersion, hl, he]
    · have hparse : parseVersion version = none := by
        rcases hm with hm | hm | hm
        · exact absurd hm he
        · exact parseVersion_malformed version (Or.inl hm)
        · exact parseVersion_malformed version (Or.inr hm)
      simp [checkClusterVersion, hl, he, hparse]

theorem checkClusterVersion_minor_gate_witness :
    checkClusterVersion 0 "test" (newClusterListerWithVersion
        (String.mk ('v' :: '1' :: '.' :: '2' :: '4' :: '.' :: (['9'] ++ "+k3s1".toList))))
        = none ∧
      checkClusterVersion 0 "test" (newClusterListerWithVersion
        (String.mk ('v' :: '1' :: '.' :: '2' :: '5' :: '.' :: (['9'] ++ "+k3s1".toList))))
        ≠ none ∧
      checkClusterVersion 0 "test" (newClusterListerWithVersion "v1.24") ≠ none :=
  ⟨((checkClusterVersion_minor_gate 0 (by decide) "test" (newClusterListerWithVersion
      (String.mk ('v' :: '1' :: '.' :: '2' :: '4' :: '.' :: (['9'] ++ "+k3s1".toList))))
      _ rfl).1 ['9'] "+k3s1".toList (by decide) (by decide) (Or.inr rfl)).1 rfl,
    ((checkClusterVersion_minor_gate 0 (by decide) "test" (newClusterListerWithVersion
      (String.mk ('v' :: '1' :: '.' :: '2' :: '5' :: '.' :: (['9'] ++ "+k3s1".toList))))
      _ rfl).1 ['9'] "+k3s1".toList (by decide) (by decide) (Or.inr rfl)).2.1 rfl,
    (checkClusterVersion_minor_gate 0 (by decide) "test" (newClusterListerWithVersion "v1.24")
      "v1.24" rfl).2 (Or.inr (Or.inl (by decide)))⟩

/-- The version strings of `TestCheckClusterVersion`, each with whether the check returns
an error. -/
theorem checkClusterVersion_test_table :
    ["", "v1.2", "v1.24", "v1.24.9", "v1.25.9", "v1.26.9", "v1.24.9+k3s1", "v1.25.9+k3s1",
        "v1.26.9+k3s1", "v1.24.9+rke2r1", "v1.25.9+rke2r1", "v1.26.9+rke2r1", "bad"].map
        (fun v => (checkClusterVersion 0 "test" (newClusterListerWithVersion v)).isSome)
      = [true, true, true, false, true, true, false, true, true, false, true, true, true] := by
  decide

end PodSecurityPolicy

end Rancher
